import Mathlib

/-!
# lab1 daemon (`src/lab1/Daemon.cpp`): a shallow embedding

The daemon object of `Daemon.h` becomes the record `Daemon`; everything the
code reaches through the operating system (files, `/proc`, the system log,
signals sent, sleeps) is an explicit `World`: a filesystem state plus the
list of actions performed so far.  Member functions become functions that
take and return the record and the world.  An uncaught C++ exception is an
explicit `Outcome.threw`.

`std::string` is `List Char`.  `int` values are `Int`; the two places where
the 32-bit range matters (`std::stoi`, `operator>>(int&)`) check it
explicitly.
-/

namespace Lab1

/-! ## Strings and number conversion -/

/-- A `std::string`, as its sequence of characters. -/
abbrev Str := List Char

/-- The value `INT_MAX` of a 32-bit `int`. -/
def INT_MAX : Int := 2147483647

/-- The value `INT_MIN` of a 32-bit `int`. -/
def INT_MIN : Int := -2147483648

/-- The function `std::to_string(int)`, also the rendering of `%d`, `%ld` and of
`operator<<` on an integer: decimal digits with a leading `-` when negative. -/
def to_string (n : Int) : Str :=
  match n with
  | Int.ofNat m => Nat.toDigits 10 m
  | Int.negSucc m => '-' :: Nat.toDigits 10 (m + 1)

/-- The C function `isspace` in the "C" locale. -/
def isspace (c : Char) : Bool :=
  c = ' ' || (9 ≤ c.toNat && c.toNat ≤ 13)

/-- The C function `isdigit`. -/
def isdigit (c : Char) : Bool :=
  48 ≤ c.toNat && c.toNat ≤ 57

/-- Value of a run of decimal digits. -/
def digitsValue (ds : Str) : Nat :=
  ds.foldl (fun acc c => 10 * acc + (c.toNat - 48)) 0

/-- The C++ exceptions the code can raise. -/
inductive Exn where
  | invalid_argument
  | out_of_range
  | filesystem_error
  deriving DecidableEq

/-- Result of a call that may raise: the value returned, or the exception that
leaves the call. -/
inductive Result (α : Type) where
  | ok (a : α)
  | threw (e : Exn)
  deriving DecidableEq

/-- Splits an optional sign off the front of a numeral. The flag is true for `-`. -/
def takeSign (s : Str) : Bool × Str :=
  match s with
  | '-' :: r => (true, r)
  | '+' :: r => (false, r)
  | _ => (false, s)

/-- The signed number a sign flag and a digit run denote. -/
def signedValue (neg : Bool) (ds : Str) : Int :=
  if neg then -(digitsValue ds : Int) else (digitsValue ds : Int)

/-- The function `std::stoi(value)` (base 10): skips leading white space, reads
an optional sign and the longest run of digits, ignores what follows. No
digit: `std::invalid_argument`; a value outside `int`: `std::out_of_range`. -/
def stoi (s : Str) : Result Int :=
  let body := takeSign (s.dropWhile isspace)
  let ds := body.2.takeWhile isdigit
  if ds = [] then Result.threw Exn.invalid_argument
  else
    let v := signedValue body.1 ds
    if v < INT_MIN ∨ INT_MAX < v then Result.threw Exn.out_of_range
    else Result.ok v

/-- The extraction `stream >> n` for `int n` whose value before the extraction
is `cur`. Returns the value of `n` afterwards and whether the extraction
succeeded. When only white space is left the stream sentry fails and `n` is
not written; when no digit follows `n` becomes 0; a value outside `int` is
clamped. None of these raises an exception. -/
def extractInt (s : Str) (cur : Int) : Int × Bool :=
  let rest := s.dropWhile isspace
  if rest = [] then (cur, false)
  else
    let body := takeSign rest
    let ds := body.2.takeWhile isdigit
    if ds = [] then (0, false)
    else
      let v := signedValue body.1 ds
      if v < INT_MIN then (INT_MIN, false)
      else if INT_MAX < v then (INT_MAX, false)
      else (v, true)

/-! ## Input streams and `std::getline` -/

/-- An input stream (`std::istringstream`, `std::ifstream`): the characters not
yet read and the `eofbit` / `failbit` state flags. -/
structure IStream where
  rest : Str
  eof : Bool
  fail : Bool
  deriving DecidableEq

/-- A fresh stream over a string. -/
def IStream.ofStr (s : Str) : IStream := ⟨s, false, false⟩

/-- The call `std::getline(is, str, delim)`. The result is the stream afterwards
and `some str` when the call succeeded (the stream converts to `true`). A
stream that is not good fails at once; otherwise characters are taken up to
the delimiter, which is consumed and dropped, or up to the end of input,
which sets `eofbit`; when nothing at all was extracted `failbit` is set. -/
def getline (is : IStream) (delim : Char) : IStream × Option Str :=
  if is.eof || is.fail then ({ is with fail := true }, none)
  else
    match is.rest.span (fun c => c != delim) with
    | (pre, _ :: post) => (⟨post, false, false⟩, some pre)
    | (pre, []) =>
      if pre = [] then (⟨[], true, true⟩, none)
      else (⟨[], true, false⟩, some pre)

/-- Auxiliary for `getlines`: `cur` is the part of the current line already read. -/
def getlinesAux : Str → Str → List Str
  | [], cur => if cur = [] then [] else [cur]
  | c :: cs, cur =>
    if c = '\n' then cur :: getlinesAux cs [] else getlinesAux cs (cur ++ [c])

/-- The lines that the loop `while (std::getline(file, line))` visits on a file
with the given content: the text is cut at every newline, and a last line
without a newline counts when it is not empty. -/
def getlines (text : Str) : List Str := getlinesAux text []

/-! ## The filesystem -/

/-- An absolute path as its list of components; `[]` is the root directory. -/
abbrev Path := List Str

/-- What a path names: a regular file with its content, or a directory. -/
inductive Entry where
  | file (content : Str)
  | dir
  deriving DecidableEq

/-- A filesystem state: the paths that exist, each with what it names. Lookup
takes the first entry of a path. Permissions, links and devices are not
part of the model. -/
abbrev FS := List (Path × Entry)

/-- Auxiliary for `resolve`: `cur` is the component being read. -/
def splitPath : Str → Str → Path
  | [], cur => if cur = [] then [] else [cur]
  | c :: cs, cur =>
    if c = '/' then (if cur = [] then splitPath cs [] else cur :: splitPath cs [])
    else splitPath cs (cur ++ [c])

/-- The path a path string names for the daemon: components are separated by
`/`, empty components are dropped. A relative string is read from the
root, the working directory after `chdir("/")`. The components `.` and
`..` are not interpreted. -/
def resolve (s : Str) : Path := splitPath s []

/-- Entry at a path, if the path exists. -/
def lookup (fs : FS) (p : Path) : Option Entry :=
  match fs with
  | [] => none
  | (q, e) :: rest => if q = p then some e else lookup rest p

/-- The call `fs::exists(path)`. -/
def fsExists (fs : FS) (p : Path) : Bool := (lookup fs p).isSome

/-- The call `fs::is_directory(path)`. -/
def isDirectory (fs : FS) (p : Path) : Bool := lookup fs p = some Entry.dir

/-- Whether `p` is `q` or an ancestor of `q`. -/
def isAncestorOrSelf (p q : Path) : Bool := p.isPrefixOf q

/-- Whether `q` is an immediate child of `p`. -/
def isChildOf (p q : Path) : Bool := p.isPrefixOf q && q.length == p.length + 1

/-- Replaces the entry at an existing path. -/
def setEntry (fs : FS) (p : Path) (e : Entry) : FS :=
  match fs with
  | [] => []
  | (q, e0) :: rest => if q = p then (p, e) :: setEntry rest p e else (q, e0) :: setEntry rest p e

/-- Opening a file for reading (`std::ifstream`) and reading all of it: `none`
when the path does not exist; a directory opens but yields no characters. -/
def readOpen (fs : FS) (p : Path) : Option Str :=
  match lookup fs p with
  | none => none
  | some Entry.dir => some []
  | some (Entry.file c) => some c

/-- Opening a file for writing (`std::ofstream`), appending when `app` is set and
truncating otherwise: an existing regular file opens, a missing one is
created when its parent is a directory, anything else fails (`none`). -/
def writeOpen (fs : FS) (p : Path) (app : Bool) : Option FS :=
  match lookup fs p with
  | some (Entry.file _) => some (if app then fs else setEntry fs p (Entry.file []))
  | some Entry.dir => none
  | none =>
    if p ≠ [] ∧ lookup fs p.dropLast = some Entry.dir then some ((p, Entry.file []) :: fs)
    else none

/-- Writing characters at the end of an open file. -/
def writeStr (fs : FS) (p : Path) (s : Str) : FS :=
  match lookup fs p with
  | some (Entry.file c) => setEntry fs p (Entry.file (c ++ s))
  | _ => fs

/-- The call `fs::remove_all(path, ec)`: the path and everything below it go. -/
def removeAll (fs : FS) (p : Path) : FS :=
  fs.filter (fun x => !isAncestorOrSelf p x.1)

/-- The paths a `fs::directory_iterator(path, ..., ec)` visits: the immediate
children when the path is a directory, nothing otherwise (the error goes
to `ec`). -/
def directoryEntries (fs : FS) (p : Path) : List Path :=
  if isDirectory fs p then (fs.filter (fun x => isChildOf p x.1)).map (fun x => x.1)
  else []

/-- The entries a `fs::recursive_directory_iterator(path, ..., ec)` visits. -/
def recursiveEntries (fs : FS) (p : Path) : List (Path × Entry) :=
  if isDirectory fs p then fs.filter (fun x => isAncestorOrSelf p x.1 && x.1 != p)
  else []

/-- The call `fs::file_size(path, ec)` on an entry: the length of a regular
file; on a directory it fails and returns `static_cast<uintmax_t>(-1)`,
which is -1 once added to a `long`. -/
def fileSize (e : Entry) : Int :=
  match e with
  | Entry.file c => c.length
  | Entry.dir => -1

/-- The throwing overload `fs::remove(path)`: a missing path is not an error and
leaves the state as it is; a regular file or an empty directory is
removed; a directory with entries raises `filesystem_error`. -/
def fsRemove (fs : FS) (p : Path) : Result FS :=
  match lookup fs p with
  | none => Result.ok fs
  | some (Entry.file _) => Result.ok (fs.filter (fun x => x.1 != p))
  | some Entry.dir =>
    if (fs.filter (fun x => isChildOf p x.1)).isEmpty then
      Result.ok (fs.filter (fun x => x.1 != p))
    else Result.threw Exn.filesystem_error

/-- Number of lines of a text file: its newline characters. -/
def lineCount (s : Str) : Nat := s.count '\n'

/-! ## The daemon object and the world around it -/

/-- The signals the daemon handles. -/
inductive Signal where
  | SIGHUP
  | SIGTERM
  deriving DecidableEq

/-- The `syslog` priorities the code uses. -/
inductive Priority where
  | LOG_ERR
  | LOG_WARNING
  | LOG_INFO
  deriving DecidableEq

/-- An action of the process that is visible outside it, in the order performed. -/
inductive Event where
  | openRead (path : Str) (ok : Bool)
  | openWrite (path : Str) (app : Bool) (ok : Bool)
  | probe (path : Str) (found : Bool)
  | kill (pid : Int) (sig : Signal)
  | sleep (seconds : Nat)
  | syslog (priority : Priority) (msg : Str)
  | fork (ok : Bool)
  | setsid (ok : Bool)
  | exit (code : Nat)
  | umask (mask : Nat)
  | chdir (path : Str)
  | close (fd : Nat)
  | openNull (writing : Bool)
  | openlog (ident : Str)
  | signal (sig : Signal)
  | remove (path : Str)
  | closelog
  deriving DecidableEq

/-- The data members of `class Daemon`. -/
structure Daemon where
  configPath : Str
  folder1 : Str
  folder2 : Str
  interval : Int
  pidFilePath : Str
  deriving DecidableEq

/-- The constructor `Daemon::Daemon()`. -/
def Daemon.new : Daemon :=
  { configPath := [], folder1 := [], folder2 := [], interval := 30,
    pidFilePath := "/tmp/daemon_lab1.pid".toList }

/-- The state outside the object: the filesystem, the clock in seconds, and the
actions performed so far. -/
structure World where
  fs : FS
  clock : Nat
  trace : List Event
  deriving DecidableEq

/-- Records an action. -/
def World.emit (w : World) (e : Event) : World :=
  { w with trace := w.trace ++ [e] }

/-- The call `std::this_thread::sleep_for(std::chrono::seconds(n))`. -/
def World.sleepFor (w : World) (n : Nat) : World :=
  { w with clock := w.clock + n, trace := w.trace ++ [Event.sleep n] }

/-- What the code reads from its environment without control over it. -/
structure Env where
  /-- Result of `getpid()` in the detached process. -/
  pid : Int
  /-- Working directory at launch, for `fs::absolute`. -/
  cwd : Str
  /-- Content of the stack slot of the local `int oldPid`, which is declared
  without an initialiser. -/
  oldPidSlot : Int
  /-- Whether the first `fork()` succeeds. -/
  fork1 : Bool
  /-- Whether `setsid()` succeeds. -/
  setsidOk : Bool
  /-- Whether the second `fork()` succeeds. -/
  fork2 : Bool
  /-- Whether the build is the portable one (`FORCE_PORTABLE_MODE` / `__APPLE__`). -/
  portable : Bool
  /-- Result of `std::ctime` at a clock value. -/
  ctime : Nat → Str

/-- How a member function ends: it returns, or an exception leaves it; either
way with the state reached by then. -/
inductive Outcome (α : Type) where
  | returned (a : α)
  | threw (e : Exn) (a : α)
  deriving DecidableEq

/-! ## `Daemon::loadConfig` -/

/-- The body of the `while` loop of `loadConfig` for one line of the file. -/
def processLine (d : Daemon) (line : Str) : Result Daemon :=
  match getline (IStream.ofStr line) '=' with
  | (is_line, some key) =>
    match getline is_line '\n' with
    | (_, some value) =>
      if key = "folder1".toList then Result.ok { d with folder1 := value }
      else if key = "folder2".toList then Result.ok { d with folder2 := value }
      else if key = "interval".toList then
        match stoi value with
        | Result.ok n => Result.ok { d with interval := n }
        | Result.threw e => Result.threw e
      else Result.ok d
    | (_, none) => Result.ok d
  | (_, none) => Result.ok d

/-- The `while (std::getline(file, line))` loop of `loadConfig` over the lines
of the file. An exception of `std::stoi` is not caught and ends the loop
with the members as set so far. -/
def fileLoop : List Str → Daemon → Outcome Daemon
  | [], d => Outcome.returned d
  | line :: rest, d =>
    match processLine d line with
    | Result.ok d1 => fileLoop rest d1
    | Result.threw e => Outcome.threw e d

/-- The member function `Daemon::loadConfig`. -/
def loadConfig (d : Daemon) (w : World) : Outcome (Daemon × World) :=
  match readOpen w.fs (resolve d.configPath) with
  | none =>
    Outcome.returned (d, (w.emit (Event.openRead d.configPath false)).emit
      (Event.syslog Priority.LOG_ERR ("Failed to open config file: ".toList ++ d.configPath)))
  | some text =>
    let w1 := w.emit (Event.openRead d.configPath true)
    match fileLoop (getlines text) d with
    | Outcome.returned d1 =>
      Outcome.returned (d1, w1.emit
        (Event.syslog Priority.LOG_INFO ("Config loaded. Interval: ".toList ++ to_string d1.interval)))
    | Outcome.threw e d1 => Outcome.threw e (d1, w1)

/-! ## The PID file -/

/-- The path string `"/proc/" + std::to_string(pid)` of `processExists`. -/
def procPath (pid : Int) : Str := "/proc/".toList ++ to_string pid

/-- The member function `Daemon::processExists`. -/
def processExists (fs : FS) (pid : Int) : Bool :=
  fsExists fs (resolve (procPath pid))

/-- The member function `Daemon::checkPidFile`. -/
def checkPidFile (env : Env) (d : Daemon) (w : World) : World :=
  match readOpen w.fs (resolve d.pidFilePath) with
  | none => w.emit (Event.openRead d.pidFilePath false)
  | some content =>
    let w1 := w.emit (Event.openRead d.pidFilePath true)
    let oldPid := (extractInt content env.oldPidSlot).1
    let found := processExists w1.fs oldPid
    let w2 := w1.emit (Event.probe (procPath oldPid) found)
    if found then
      (((w2.emit (Event.syslog Priority.LOG_INFO
          ("Found existing daemon with PID ".toList ++ to_string oldPid ++
            ". Sending SIGTERM.".toList))).emit
        (Event.kill oldPid Signal.SIGTERM)).sleepFor 1)
    else
      w2.emit (Event.syslog Priority.LOG_INFO
        ("Stale PID file found (PID ".toList ++ to_string oldPid ++
          "), but process not running.".toList))

/-- The member function `Daemon::writePidFile`. -/
def writePidFile (env : Env) (d : Daemon) (w : World) : World :=
  match writeOpen w.fs (resolve d.pidFilePath) false with
  | some fs1 =>
    { w with fs := writeStr fs1 (resolve d.pidFilePath) (to_string env.pid),
             trace := w.trace ++ [Event.openWrite d.pidFilePath false true] }
  | none =>
    (w.emit (Event.openWrite d.pidFilePath false false)).emit
      (Event.syslog Priority.LOG_ERR "Failed to write PID file.".toList)

/-! ## `Daemon::daemonize` -/

/-- How `daemonize` ends for the process that is followed through the forks:
it has exited, or it goes on detached. -/
inductive Detach where
  | exited (code : Nat) (w : World)
  | detached (w : World)
  deriving DecidableEq

/-- The actions of `daemonize` after the second fork. -/
def detachTail (env : Env) : List Event :=
  [Event.umask 0, Event.chdir "/".toList, Event.close 0, Event.close 1, Event.close 2,
   Event.openNull false, Event.openNull true, Event.openNull true,
   Event.openlog "lab1_daemon".toList,
   Event.syslog Priority.LOG_INFO
     (if env.portable then "Daemon started (Portable Mode).".toList
      else "Daemon started (Linux /proc Mode).".toList)]

/-- The member function `Daemon::daemonize`. After a successful `fork` the
parent leaves with `exit(EXIT_SUCCESS)` and the child is followed. -/
def daemonize (env : Env) (w : World) : Detach :=
  if !env.fork1 then Detach.exited 1 ((w.emit (Event.fork false)).emit (Event.exit 1))
  else
    let w1 := w.emit (Event.fork true)
    if !env.setsidOk then Detach.exited 1 ((w1.emit (Event.setsid false)).emit (Event.exit 1))
    else
      let w2 := w1.emit (Event.setsid true)
      if !env.fork2 then Detach.exited 1 ((w2.emit (Event.fork false)).emit (Event.exit 1))
      else
        let w3 := w2.emit (Event.fork true)
        Detach.detached { w3 with trace := w3.trace ++ detachTail env }

/-! ## The work cycle -/

/-- The member function `Daemon::getDirectorySize`. -/
def getDirectorySize (fs : FS) (path : Path) : Int :=
  if !fsExists fs path then 0
  else if !isDirectory fs path then
    match lookup fs path with
    | some e => fileSize e
    | none => 0
  else
    (recursiveEntries fs path).foldl
      (fun size x => if x.2 ≠ Entry.dir then size + fileSize x.2 else size) 0

/-- The member function `Daemon::clearDirectory`. -/
def clearDirectory (fs : FS) (path : Path) : FS :=
  if !fsExists fs path then fs
  else (directoryEntries fs path).foldl removeAll fs

/-- The statement `if (!timeStr.empty() && timeStr.back() == '\n') timeStr.pop_back();`. -/
def popNewline (s : Str) : Str :=
  if s.getLast? = some '\n' then s.dropLast else s

/-- The text `doWork` builds and sends to the log file, from the result of
`std::ctime` and the measured size: `logEntry` collects `"Time: "` and
the `ctime` text, `timeStr` is that text without its final newline, and
the record is `"Time: " << timeStr << ", Size: " << size << " bytes"`
followed by `std::endl`. -/
def logRecord (ctimeText : Str) (size : Int) : Str :=
  let logEntry := "Time: ".toList ++ ctimeText
  let timeStr := popNewline logEntry
  "Time: ".toList ++ timeStr ++ ", Size: ".toList ++ to_string size ++ " bytes".toList ++ ['\n']

/-- The member function `Daemon::doWork`. -/
def doWork (env : Env) (d : Daemon) (w : World) : World :=
  if d.folder1 = [] ∨ d.folder2 = [] then
    w.emit (Event.syslog Priority.LOG_WARNING "Folders not configured correctly.".toList)
  else
    let size := getDirectorySize w.fs (resolve d.folder1)
    let logFilePath := d.folder2 ++ "/size.log".toList
    let w1 : World :=
      match writeOpen w.fs (resolve logFilePath) true with
      | some fs1 =>
        { w with fs := writeStr fs1 (resolve logFilePath) (logRecord (env.ctime w.clock) size),
                 trace := w.trace ++ [Event.openWrite logFilePath true true] }
      | none =>
        (w.emit (Event.openWrite logFilePath true false)).emit
          (Event.syslog Priority.LOG_ERR ("Failed to write to log file: ".toList ++ logFilePath))
    let w2 : World := { w1 with fs := clearDirectory w1.fs (resolve d.folder1) }
    w2.emit (Event.syslog Priority.LOG_INFO
      ("Work done. Size ".toList ++ to_string size ++ " logged, folder cleared.".toList))

/-! ## `Daemon::run` -/

/-- The function `fs::absolute(cfgPath).string()` with the fallback of the
`catch` clause: an empty path raises and is kept as it is, an absolute
path is returned as it is, and a relative one is appended to the working
directory, with a separator unless that already ends in one (the root). -/
def absolute (env : Env) (cfgPath : Str) : Str :=
  match cfgPath with
  | [] => []
  | '/' :: _ => cfgPath
  | _ =>
    if env.cwd.getLast? = some '/' then env.cwd ++ cfgPath
    else env.cwd ++ '/' :: cfgPath

/-- Where `run` is once the start sequence is over. -/
inductive PC where
  /-- Before the condition of `while (m_running)`. -/
  | whileCheck
  /-- Before the condition of `if (m_reloadConfig)`. -/
  | ifReload
  /-- Before the call `loadConfig()` of the loop. -/
  | reload
  /-- Before `m_reloadConfig = false`. -/
  | clearFlag
  /-- Before the call `doWork()`. -/
  | work
  /-- Before the condition `i < interval` of the sleep loop. -/
  | forCheck
  /-- Before the read of `m_running` in `!m_running || m_reloadConfig`. -/
  | readRunning
  /-- Before the read of `m_reloadConfig` in `!m_running || m_reloadConfig`. -/
  | readReload
  /-- Before `sleep_for(seconds(1))`. -/
  | sleeping
  /-- Before `++i`. -/
  | increment
  /-- After the loop: `syslog`, `fs::remove(pidFilePath)`, `closelog`. -/
  | stopping
  /-- The function `run` has returned. -/
  | returned
  /-- An exception left `run` uncaught. -/
  | terminated
  deriving DecidableEq

/-- The state of `run` in the scheduler loop: the place in the code, the
object, the world, the counter `i` of the sleep loop and the two atomic
flags. -/
structure State where
  pc : PC
  d : Daemon
  w : World
  i : Int
  m_running : Bool
  m_reloadConfig : Bool
  deriving DecidableEq

/-- The function `Daemon::signalHandler`, run when a signal is delivered. -/
def signalHandler (s : State) (sig : Signal) : State :=
  match sig with
  | Signal.SIGHUP => { s with m_reloadConfig := true }
  | Signal.SIGTERM => { s with m_running := false }

/-- The actions after the loop of `run`. The overload of `fs::remove` used
there raises on failure. -/
def stopActions (s : State) : State :=
  let w1 := (s.w.emit (Event.syslog Priority.LOG_INFO "Daemon stopping...".toList)).emit
    (Event.remove s.d.pidFilePath)
  match fsRemove w1.fs (resolve s.d.pidFilePath) with
  | Result.ok fs1 => { s with pc := PC.returned, w := { w1 with fs := fs1 }.emit Event.closelog }
  | Result.threw _ => { s with pc := PC.terminated, w := w1 }

/-- One step of `run` from a place in the loop to the next one. -/
def step (env : Env) (s : State) : State :=
  match s.pc with
  | PC.whileCheck => if s.m_running then { s with pc := PC.ifReload } else { s with pc := PC.stopping }
  | PC.ifReload => if s.m_reloadConfig then { s with pc := PC.reload } else { s with pc := PC.work }
  | PC.reload =>
    match loadConfig s.d s.w with
    | Outcome.returned (d1, w1) => { s with pc := PC.clearFlag, d := d1, w := w1 }
    | Outcome.threw _ (d1, w1) => { s with pc := PC.terminated, d := d1, w := w1 }
  | PC.clearFlag => { s with pc := PC.work, m_reloadConfig := false }
  | PC.work => { s with pc := PC.forCheck, w := doWork env s.d s.w, i := 0 }
  | PC.forCheck => if s.i < s.d.interval then { s with pc := PC.readRunning } else { s with pc := PC.whileCheck }
  | PC.readRunning => if !s.m_running then { s with pc := PC.whileCheck } else { s with pc := PC.readReload }
  | PC.readReload => if s.m_reloadConfig then { s with pc := PC.whileCheck } else { s with pc := PC.sleeping }
  | PC.sleeping => { s with pc := PC.increment, w := s.w.sleepFor 1 }
  | PC.increment => { s with pc := PC.forCheck, i := s.i + 1 }
  | PC.stopping => stopActions s
  | PC.returned => s
  | PC.terminated => s

/-- Runs the loop along a schedule of signal deliveries: each item lists the
signals delivered before the next step. -/
def exec (env : Env) : List (List Signal) → State → State
  | [], s => s
  | sigs :: rest, s => exec env rest (step env (sigs.foldl signalHandler s))

/-- The start sequence of `run`, up to the installation of the signal handlers. -/
def startup (env : Env) (cfgPath : Str) (d : Daemon) (w : World) : Detach × Daemon :=
  let d1 := { d with configPath := absolute env cfgPath }
  let w1 := checkPidFile env d1 w
  match daemonize env w1 with
  | Detach.exited code w2 => (Detach.exited code w2, d1)
  | Detach.detached w2 =>
    let w3 := writePidFile env d1 w2
    (Detach.detached ((w3.emit (Event.signal Signal.SIGHUP)).emit (Event.signal Signal.SIGTERM)), d1)

/-- The state in which `run` enters its loop: after the start sequence and the
first `loadConfig()`, with the flags at their initial values. -/
def enterLoop (d : Daemon) (w : World) : State :=
  match loadConfig d w with
  | Outcome.returned (d1, w1) =>
    { pc := PC.whileCheck, d := d1, w := w1, i := 0, m_running := true, m_reloadConfig := false }
  | Outcome.threw _ (d1, w1) =>
    { pc := PC.terminated, d := d1, w := w1, i := 0, m_running := true, m_reloadConfig := false }

/-- The actions performed between an earlier world and a later one. -/
def eventsSince (w0 w : World) : List Event := w.trace.drop w0.trace.length

/-- The actions of a `daemonize` call in which both forks and `setsid` succeed. -/
def detachEvents (env : Env) : List Event :=
  [Event.fork true, Event.setsid true, Event.fork true] ++ detachTail env

/-- Whether an action is one of those `daemonize` performs. -/
def isDetachEvent (e : Event) : Bool :=
  match e with
  | Event.fork _ => true
  | Event.setsid _ => true
  | Event.exit _ => true
  | Event.umask _ => true
  | Event.chdir _ => true
  | Event.close _ => true
  | Event.openNull _ => true
  | Event.openlog _ => true
  | Event.syslog _ msg =>
    msg = "Daemon started (Portable Mode).".toList ∨ msg = "Daemon started (Linux /proc Mode).".toList
  | _ => false

/-- The places of the sleep loop `for (int i = 0; i < interval; ++i)`. -/
def inSleepPhase (pc : PC) : Bool :=
  pc = PC.forCheck ∨ pc = PC.readRunning ∨ pc = PC.readReload ∨ pc = PC.sleeping ∨
    pc = PC.increment

/-! ## Concrete data for the closed statements -/

/-- An environment: process 4242, both forks and `setsid` succeed, the Linux
build, a fixed time text, and 1 in the stack slot of `oldPid`. -/
def exEnv : Env :=
  { pid := 4242, cwd := "/home/user".toList, oldPidSlot := 1, fork1 := true,
    setsidOk := true, fork2 := true, portable := false,
    ctime := fun _ => "Fri Oct 30 08:19:00 2026\n".toList }

/-- A filesystem with a source directory holding a file and a subdirectory, an
empty destination directory, `/proc` entries of processes 1 and 1234, the
given config file, and the given PID file, if any. -/
def exFS (config : Str) (pidFile : Option Str) : FS :=
  [([], Entry.dir),
   (["tmp".toList], Entry.dir),
   (["tmp".toList, "src".toList], Entry.dir),
   (["tmp".toList, "src".toList, "a.txt".toList], Entry.file "hello".toList),
   (["tmp".toList, "src".toList, "sub".toList], Entry.dir),
   (["tmp".toList, "src".toList, "sub".toList, "b.txt".toList], Entry.file "xy".toList),
   (["tmp".toList, "dst".toList], Entry.dir),
   (["proc".toList], Entry.dir),
   (["proc".toList, "1".toList], Entry.dir),
   (["proc".toList, "1234".toList], Entry.dir),
   (["etc".toList], Entry.dir),
   (["etc".toList, "lab1.conf".toList], Entry.file config)] ++
  (match pidFile with
   | some content => [(["tmp".toList, "daemon_lab1.pid".toList], Entry.file content)]
   | none => [])

/-- A world at clock 0 in which nothing has been done yet. -/
def exWorld (config : Str) (pidFile : Option Str) : World :=
  { fs := exFS config pidFile, clock := 0, trace := [] }

/-- A daemon object with the given folders and interval, its config at
`/etc/lab1.conf`. -/
def exDaemon (folder1 folder2 : Str) (interval : Int) : Daemon :=
  { Daemon.new with configPath := "/etc/lab1.conf".toList, folder1 := folder1,
                    folder2 := folder2, interval := interval }

/-- A config file with both folders and an interval of 5 seconds. -/
def exConfig : Str := "folder1=/tmp/src\nfolder2=/tmp/dst\ninterval=5\n".toList

/-- A config file whose `interval` line is not a number, between two folder lines. -/
def exConfigBadInterval : Str := "folder2=/tmp/dst\ninterval=abc\nfolder1=/tmp/src\n".toList

/-- A state of the loop at the given place, flags as given, counter 2. -/
def exState (pc : PC) (running reload : Bool) (config : Str) : State :=
  { pc := pc, d := exDaemon "/tmp/src".toList "/tmp/dst".toList 30,
    w := exWorld config (some "4242".toList), i := 2,
    m_running := running, m_reloadConfig := reload }

/-! # Theorems -/

/-! ## Filesystem lemmas -/

theorem lookup_filter (f : Path → Bool) (fs : FS) (p : Path) :
    lookup (fs.filter (fun x => f x.1)) p = if f p then lookup fs p else none := by
  induction fs with
  | nil => simp [lookup]
  | cons x rest ih =>
    obtain ⟨q, e⟩ := x
    by_cases hq : q = p
    · subst hq
      by_cases hf : f q = true
      · simp [List.filter, hf, lookup]
      · simp only [Bool.not_eq_true] at hf
        simp [List.filter, hf, ih]
    · by_cases hf : f q = true
      · simp [List.filter, hf, lookup, hq, ih]
      · simp only [Bool.not_eq_true] at hf
        simp [List.filter, hf, lookup, hq, ih]

theorem lookup_setEntry_same (fs : FS) (p : Path) (e e0 : Entry)
    (h : lookup fs p = some e0) : lookup (setEntry fs p e) p = some e := by
  induction fs with
  | nil => simp [lookup] at h
  | cons x rest ih =>
    obtain ⟨q, e1⟩ := x
    by_cases hq : q = p
    · simp [setEntry, lookup, hq]
    · simp only [lookup, hq, if_false] at h
      simp [setEntry, lookup, hq, ih h]

theorem lookup_setEntry_ne (fs : FS) (p q : Path) (e : Entry) (h : q ≠ p) :
    lookup (setEntry fs p e) q = lookup fs q := by
  induction fs with
  | nil => simp [setEntry, lookup]
  | cons x rest ih =>
    obtain ⟨r, e1⟩ := x
    by_cases hr : r = p
    · have hpq : ¬ p = q := fun hh => h hh.symm
      subst hr
      simp [setEntry, lookup, hpq, ih]
    · by_cases hrq : r = q
      · subst hrq
        simp [setEntry, lookup, hr]
      · simp [setEntry, lookup, hr, hrq, ih]

theorem lookup_foldl_removeAll (cs : List Path) (fs : FS) (q : Path) :
    lookup (cs.foldl removeAll fs) q =
      if cs.any (fun c => isAncestorOrSelf c q) then none else lookup fs q := by
  induction cs generalizing fs with
  | nil => simp
  | cons c rest ih =>
    rw [List.foldl_cons, ih]
    have hrm : lookup (removeAll fs c) q = if (!isAncestorOrSelf c q) then lookup fs q else none :=
      lookup_filter (fun x => !isAncestorOrSelf c x) fs q
    rw [hrm]
    by_cases h1 : isAncestorOrSelf c q = true
    · simp [h1]
    · simp only [Bool.not_eq_true] at h1
      simp [h1]

theorem lookup_mem (fs : FS) (q : Path) (e : Entry) (h : lookup fs q = some e) :
    (q, e) ∈ fs := by
  induction fs with
  | nil => simp [lookup] at h
  | cons x rest ih =>
    obtain ⟨r, e1⟩ := x
    by_cases hr : r = q
    · simp only [lookup, hr, if_true, Option.some.injEq] at h
      simp [hr, h]
    · simp only [lookup, hr, if_false] at h
      exact List.mem_cons_of_mem _ (ih h)

theorem splitPath_append_slash (s t cur : Str) :
    splitPath (s ++ '/' :: t) cur = splitPath s cur ++ splitPath t [] := by
  induction s generalizing cur with
  | nil => by_cases h : cur = [] <;> simp [splitPath, h]
  | cons c cs ih =>
    by_cases hc : c = '/'
    · by_cases h : cur = [] <;> simp [splitPath, hc, h, ih]
    · simp [splitPath, hc, ih]

theorem resolve_logFilePath (folder : Str) :
    resolve (folder ++ "/size.log".toList) = resolve folder ++ ["size.log".toList] := by
  have h : "/size.log".toList = '/' :: "size.log".toList := rfl
  rw [h]
  unfold resolve
  rw [splitPath_append_slash]
  rfl

/-- Opening for append and writing: the file holds its former content (none
when it was created) followed by the text, and no other path changes. -/
theorem appendFile_lookup (fs fs1 : FS) (p : Path) (text : Str)
    (hopen : writeOpen fs p true = some fs1) :
    (∃ old, (lookup fs p = some (Entry.file old) ∨ (lookup fs p = none ∧ old = [])) ∧
      lookup (writeStr fs1 p text) p = some (Entry.file (old ++ text))) ∧
    ∀ q, q ≠ p → lookup (writeStr fs1 p text) q = lookup fs q := by
  unfold writeOpen at hopen
  cases hl : lookup fs p with
  | none =>
    rw [hl] at hopen
    simp only at hopen
    split at hopen
    · simp only [Option.some.injEq] at hopen
      subst hopen
      have h1 : lookup ((p, Entry.file []) :: fs) p = some (Entry.file []) := by simp [lookup]
      refine ⟨⟨[], Or.inr ⟨rfl, rfl⟩, ?_⟩, ?_⟩
      · simp only [writeStr, h1]
        exact lookup_setEntry_same _ _ _ _ h1
      · intro q hq
        simp only [writeStr, h1]
        rw [lookup_setEntry_ne _ _ _ _ hq]
        have : ¬ p = q := fun hh => hq hh.symm
        simp [lookup, this]
    · simp at hopen
  | some e =>
    rw [hl] at hopen
    cases e with
    | dir => simp at hopen
    | file c =>
      simp only [if_true, Option.some.injEq] at hopen
      subst hopen
      refine ⟨⟨c, Or.inl rfl, ?_⟩, ?_⟩
      · simp only [writeStr, hl]
        exact lookup_setEntry_same _ _ _ _ hl
      · intro q hq
        simp only [writeStr, hl]
        exact lookup_setEntry_ne _ _ _ _ hq

theorem mem_directoryEntries (fs : FS) (p q : Path) (e : Entry)
    (hdir : lookup fs p = some Entry.dir) (hq : lookup fs q = some e)
    (hchild : isChildOf p q = true) : q ∈ directoryEntries fs p := by
  unfold directoryEntries isDirectory
  simp only [hdir, decide_True, if_true, List.mem_map, List.mem_filter]
  exact ⟨(q, e), ⟨lookup_mem fs q e hq, hchild⟩, rfl⟩

theorem isChildOf_of_mem_directoryEntries (fs : FS) (p c : Path)
    (h : c ∈ directoryEntries fs p) : isChildOf p c = true := by
  unfold directoryEntries at h
  split at h
  · simp only [List.mem_map, List.mem_filter] at h
    obtain ⟨x, ⟨_, hx⟩, rfl⟩ := h
    exact hx
  · simp at h

/-- What `clearDirectory` leaves of an existing directory: a path survives
exactly when no immediate child of the directory is it or above it. -/
theorem lookup_clearDirectory (fs : FS) (p q : Path) (hdir : lookup fs p = some Entry.dir) :
    lookup (clearDirectory fs p) q =
      if (directoryEntries fs p).any (fun c => isAncestorOrSelf c q) then none
      else lookup fs q := by
  unfold clearDirectory fsExists
  simp only [hdir, Option.isSome_some, Bool.not_true, Bool.false_eq_true, if_false]
  exact lookup_foldl_removeAll _ _ _

theorem writeOpen_append_isSome (fs : FS) (p : Path) (name : Str)
    (hparent : lookup fs p = some Entry.dir)
    (hfile : lookup fs (p ++ [name]) ≠ some Entry.dir) :
    ∃ fs1, writeOpen fs (p ++ [name]) true = some fs1 := by
  unfold writeOpen
  cases hl : lookup fs (p ++ [name]) with
  | none => exact ⟨(p ++ [name], Entry.file []) :: fs, by simp [hparent]⟩
  | some e =>
    cases e with
    | dir => exact absurd hl hfile
    | file c => exact ⟨fs, by simp⟩

/-! ## Text lemmas -/

theorem popNewline_append_newline (s : Str) : popNewline (s ++ ['\n']) = s := by
  simp [popNewline]

theorem digitChar_ne_newline : ∀ k, k < 10 → Nat.digitChar k ≠ '\n' := by
  decide

theorem toDigitsCore_no_newline (fuel n : Nat) (ds : List Char) (h : '\n' ∉ ds) :
    '\n' ∉ Nat.toDigitsCore 10 fuel n ds := by
  induction fuel generalizing n ds with
  | zero => simpa [Nat.toDigitsCore] using h
  | succ f ih =>
    have hd : '\n' ∉ Nat.digitChar (n % 10) :: ds := by
      simp only [List.mem_cons, not_or]
      exact ⟨fun hh => digitChar_ne_newline _ (Nat.mod_lt _ (by decide)) hh.symm, h⟩
    unfold Nat.toDigitsCore
    by_cases h0 : n / 10 = 0
    · simpa [h0] using hd
    · simp only [h0, if_false]
      exact ih _ _ hd

theorem to_string_no_newline (n : Int) : '\n' ∉ to_string n := by
  cases n with
  | ofNat m => exact toDigitsCore_no_newline _ _ _ (by simp)
  | negSucc m =>
    simp only [to_string, List.mem_cons, not_or]
    exact ⟨by decide, toDigitsCore_no_newline _ _ _ (by simp)⟩

theorem logRecord_eq (t : Str) (n : Int) :
    logRecord (t ++ ['\n']) n =
      "Time: Time: ".toList ++ t ++ ", Size: ".toList ++ to_string n ++ " bytes\n".toList := by
  have h : "Time: ".toList ++ (t ++ ['\n']) = ("Time: ".toList ++ t) ++ ['\n'] := by simp
  simp only [logRecord, h, popNewline_append_newline]
  have h1 : "Time: Time: ".toList = "Time: ".toList ++ "Time: ".toList := by decide
  have h2 : " bytes\n".toList = " bytes".toList ++ ['\n'] := by decide
  rw [h1, h2]
  simp only [List.append_assoc]

theorem lineCount_logRecord (t : Str) (n : Int) (ht : '\n' ∉ t) :
    lineCount (logRecord (t ++ ['\n']) n) = 1 := by
  rw [logRecord_eq]
  unfold lineCount
  simp only [List.count_append]
  rw [List.count_eq_zero_of_not_mem ht, List.count_eq_zero_of_not_mem (to_string_no_newline n)]
  decide

theorem doWork_fs (env : Env) (d : Daemon) (w : World) (fs1 : FS)
    (h1 : d.folder1 ≠ []) (h2 : d.folder2 ≠ [])
    (hopen : writeOpen w.fs (resolve (d.folder2 ++ "/size.log".toList)) true = some fs1) :
    (doWork env d w).fs =
      clearDirectory
        (writeStr fs1 (resolve (d.folder2 ++ "/size.log".toList))
          (logRecord (env.ctime w.clock) (getDirectorySize w.fs (resolve d.folder1))))
        (resolve d.folder1) := by
  unfold doWork
  rw [if_neg (by simp [h1, h2])]
  simp only [hopen, World.emit]

theorem child_not_above_log (p1 p2 c : Path) (name : Str)
    (hsep : isAncestorOrSelf p1 p2 = false) (hc : isChildOf p1 c = true) :
    isAncestorOrSelf c (p2 ++ [name]) = false := by
  by_contra hcon
  simp only [Bool.not_eq_false] at hcon
  simp only [isChildOf, Bool.and_eq_true, beq_iff_eq] at hc
  simp only [isAncestorOrSelf, List.isPrefixOf_iff_prefix] at hcon hc
  have hlen := hcon.length_le
  simp only [List.length_append, List.length_singleton] at hlen
  have hp : p1 <+: p2 :=
    List.prefix_of_prefix_length_le (hc.1.trans hcon) (List.prefix_append p2 [name]) (by omega)
  have : isAncestorOrSelf p1 p2 = true := by
    simpa [isAncestorOrSelf] using hp
  rw [hsep] at this
  exact Bool.noConfusion this

theorem child_not_above_parent (p c : Path) (hc : isChildOf p c = true) :
    isAncestorOrSelf c p = false := by
  by_contra hcon
  simp only [Bool.not_eq_false] at hcon
  simp only [isChildOf, Bool.and_eq_true, beq_iff_eq] at hc
  simp only [isAncestorOrSelf, List.isPrefixOf_iff_prefix] at hcon
  have := hcon.length_le
  omega

theorem any_children_false (fs : FS) (p q : Path)
    (h : ∀ c, isChildOf p c = true → isAncestorOrSelf c q = false) :
    (directoryEntries fs p).any (fun c => isAncestorOrSelf c q) = false := by
  rw [List.any_eq_false]
  intro c hc
  simp [h c (isChildOf_of_mem_directoryEntries fs p c hc)]

/-- C3 (amended): with `folder1` and `folder2` non-empty and naming existing
directories, `folder2` neither equal to `folder1` nor inside it, and
`size.log` in `folder2` not a directory, one `doWork` cycle leaves
`size.log` a file holding its former content followed by the one record of
the cycle (one line more when the time text is a single line), removes
every immediate child of `folder1`, and leaves `folder1` a directory. -/
theorem doWork_cycle (env : Env) (d : Daemon) (w : World) (t : Str)
    (h1 : d.folder1 ≠ []) (h2 : d.folder2 ≠ [])
    (hd1 : lookup w.fs (resolve d.folder1) = some Entry.dir)
    (hd2 : lookup w.fs (resolve d.folder2) = some Entry.dir)
    (hsep : isAncestorOrSelf (resolve d.folder1) (resolve d.folder2) = false)
    (hlog : lookup w.fs (resolve (d.folder2 ++ "/size.log".toList)) ≠ some Entry.dir)
    (htime : env.ctime w.clock = t ++ ['\n']) (ht : '\n' ∉ t) :
    (∃ old,
      (lookup w.fs (resolve (d.folder2 ++ "/size.log".toList)) = some (Entry.file old) ∨
        (lookup w.fs (resolve (d.folder2 ++ "/size.log".toList)) = none ∧ old = [])) ∧
      lookup (doWork env d w).fs (resolve (d.folder2 ++ "/size.log".toList)) =
        some (Entry.file (old ++
          logRecord (env.ctime w.clock) (getDirectorySize w.fs (resolve d.folder1)))) ∧
      lineCount (old ++
          logRecord (env.ctime w.clock) (getDirectorySize w.fs (resolve d.folder1))) =
        lineCount old + 1) ∧
    (∀ q, isChildOf (resolve d.folder1) q = true → lookup (doWork env d w).fs q = none) ∧
    lookup (doWork env d w).fs (resolve d.folder1) = some Entry.dir := by
  have hL := resolve_logFilePath d.folder2
  have hlog2 : lookup w.fs (resolve d.folder2 ++ ["size.log".toList]) ≠ some Entry.dir := by
    rw [← hL]; exact hlog
  obtain ⟨fs1, hopen⟩ := writeOpen_append_isSome w.fs (resolve d.folder2) "size.log".toList hd2 hlog2
  rw [← hL] at hopen
  rw [doWork_fs env d w fs1 h1 h2 hopen]
  obtain ⟨⟨old, hold, hnew⟩, hother⟩ :=
    appendFile_lookup w.fs fs1 (resolve (d.folder2 ++ "/size.log".toList))
      (logRecord (env.ctime w.clock) (getDirectorySize w.fs (resolve d.folder1))) hopen
  have hne : resolve d.folder1 ≠ resolve (d.folder2 ++ "/size.log".toList) := by
    intro heq
    rw [← heq] at hlog
    exact hlog hd1
  have hdir1 := hother (resolve d.folder1) hne
  rw [hd1] at hdir1
  refine ⟨⟨old, hold, ?_, ?_⟩, ?_, ?_⟩
  · rw [lookup_clearDirectory _ _ _ hdir1, any_children_false, hnew]
    · simp
    · intro c hc
      rw [hL]
      exact child_not_above_log _ _ _ _ hsep hc
  · rw [htime]
    unfold lineCount
    rw [List.count_append]
    have := lineCount_logRecord t (getDirectorySize w.fs (resolve d.folder1)) ht
    unfold lineCount at this
    rw [this]
  · intro q hq
    rw [lookup_clearDirectory _ _ _ hdir1]
    cases hlq : lookup (writeStr fs1 (resolve (d.folder2 ++ "/size.log".toList))
        (logRecord (env.ctime w.clock) (getDirectorySize w.fs (resolve d.folder1)))) q with
    | none => simp
    | some e =>
      have hmem := mem_directoryEntries _ _ _ e hdir1 hlq hq
      have hany : (directoryEntries (writeStr fs1 (resolve (d.folder2 ++ "/size.log".toList))
          (logRecord (env.ctime w.clock) (getDirectorySize w.fs (resolve d.folder1))))
          (resolve d.folder1)).any (fun c => isAncestorOrSelf c q) = true := by
        rw [List.any_eq_true]
        exact ⟨q, hmem, by simp [isAncestorOrSelf]⟩
      rw [hany]
      simp
  · rw [lookup_clearDirectory _ _ _ hdir1, any_children_false, hdir1]
    · simp
    · intro c hc
      exact child_not_above_parent _ _ hc

/-! ## `std::getline` and the lines of a file -/

theorem getline_ofStr_delim (pre post : Str) (delim : Char) (h : delim ∉ pre) :
    getline (IStream.ofStr (pre ++ delim :: post)) delim = (⟨post, false, false⟩, some pre) := by
  have hp : ∀ a ∈ pre, (a != delim) = true := by
    intro a ha
    simp only [bne_iff_ne, ne_eq]
    intro hh
    exact h (hh ▸ ha)
  have ht : (pre ++ delim :: post).takeWhile (fun c => c != delim) = pre := by
    rw [List.takeWhile_append_of_pos hp]
    simp [List.takeWhile]
  have hd : (pre ++ delim :: post).dropWhile (fun c => c != delim) = delim :: post := by
    rw [List.dropWhile_append_of_pos hp]
    simp [List.dropWhile]
  simp only [getline, IStream.ofStr, Bool.or_self, Bool.false_eq_true, if_false,
    List.span_eq_take_drop, ht, hd]

theorem getline_ofStr_end (s : Str) (delim : Char) (h : delim ∉ s) :
    getline (IStream.ofStr s) delim =
      if s = [] then (⟨[], true, true⟩, none) else (⟨[], true, false⟩, some s) := by
  have hp : ∀ a ∈ s, (a != delim) = true := by
    intro a ha
    simp only [bne_iff_ne, ne_eq]
    intro hh
    exact h (hh ▸ ha)
  have ht : s.takeWhile (fun c => c != delim) = s := List.takeWhile_eq_self_iff.mpr hp
  have hd : s.dropWhile (fun c => c != delim) = [] := List.dropWhile_eq_nil_iff.mpr hp
  simp only [getline, IStream.ofStr, Bool.or_self, Bool.false_eq_true, if_false,
    List.span_eq_take_drop, ht, hd]

theorem getline_not_good (is : IStream) (delim : Char) (h : is.eof = true) :
    (getline is delim).2 = none := by
  simp [getline, h]

/-- Every string splits at the first occurrence of a character, if there is one. -/
theorem split_at_first (s : Str) (delim : Char) :
    delim ∉ s ∨ ∃ pre post, s = pre ++ delim :: post ∧ delim ∉ pre ∧
      pre = s.takeWhile (fun c => c != delim) := by
  induction s with
  | nil => left; simp
  | cons c cs ih =>
    by_cases hc : c = delim
    · right
      exact ⟨[], cs, by simp [hc], by simp, by simp [List.takeWhile, hc]⟩
    · rcases ih with h | ⟨pre, post, h1, h2, h3⟩
      · left
        simp only [List.mem_cons, not_or]
        exact ⟨fun hh => hc hh.symm, h⟩
      · right
        refine ⟨c :: pre, post, by simp [h1], ?_, ?_⟩
        · simp only [List.mem_cons, not_or]
          exact ⟨fun hh => hc hh.symm, h2⟩
        · have : (c != delim) = true := by simp [hc]
          simp [List.takeWhile, this, ← h3]

theorem processLine_no_separator (d : Daemon) (line : Str) (h : '=' ∉ line) :
    processLine d line = Result.ok d := by
  unfold processLine
  rw [getline_ofStr_end line '=' h]
  by_cases hl : line = []
  · simp [hl]
  · simp only [hl, if_false]
    have : (getline ⟨[], true, false⟩ '\n').2 = none := getline_not_good _ _ rfl
    revert this
    cases getline ⟨[], true, false⟩ '\n' with
    | mk a b =>
      intro hb
      simp only at hb
      subst hb
      rfl

/-- A line `key=rest` without newline: the value is `rest` when that is not
empty, and the line is skipped when it is. -/
theorem processLine_key_value (d : Daemon) (key rest : Str) (hk : '=' ∉ key)
    (hr : '\n' ∉ rest) :
    processLine d (key ++ '=' :: rest) =
      if rest = [] then Result.ok d
      else if key = "folder1".toList then Result.ok { d with folder1 := rest }
      else if key = "folder2".toList then Result.ok { d with folder2 := rest }
      else if key = "interval".toList then
        match stoi rest with
        | Result.ok n => Result.ok { d with interval := n }
        | Result.threw e => Result.threw e
      else Result.ok d := by
  unfold processLine
  rw [getline_ofStr_delim key rest '=' hk]
  simp only
  have h2 := getline_ofStr_end rest '\n' hr
  simp only [IStream.ofStr] at h2
  rw [h2]
  by_cases hrest : rest = []
  · simp [hrest]
  · simp only [hrest, if_false]

/-- C10: a config line without `=`, or whose key (the text before the first
`=`) is none of `folder1`, `folder2`, `interval`, leaves the three fields
as they are; a line `folder1=v` or `folder2=v` with `v` not empty sets
that field to `v`, all the text after the first `=`, and nothing else. -/
theorem processLine_keys (d : Daemon) (line : Str) (hline : '\n' ∉ line) :
    (('=' ∉ line ∨
        (line.takeWhile (fun c => c != '=') ≠ "folder1".toList ∧
         line.takeWhile (fun c => c != '=') ≠ "folder2".toList ∧
         line.takeWhile (fun c => c != '=') ≠ "interval".toList)) →
      processLine d line = Result.ok d) ∧
    (∀ v, v ≠ [] → line = "folder1=".toList ++ v →
      processLine d line = Result.ok { d with folder1 := v }) ∧
    (∀ v, v ≠ [] → line = "folder2=".toList ++ v →
      processLine d line = Result.ok { d with folder2 := v }) := by
  refine ⟨?_, ?_, ?_⟩
  · intro h
    rcases split_at_first line '=' with hno | ⟨key, rest, hsplit, hkey, htake⟩
    · exact processLine_no_separator d line hno
    · rcases h with hno | ⟨k1, k2, k3⟩
      · exact absurd (by rw [hsplit]; simp) hno
      · have hr : '\n' ∉ rest := by
          intro hh
          exact hline (by rw [hsplit]; simp [hh])
        rw [← htake] at k1 k2 k3
        rw [hsplit, processLine_key_value d key rest hkey hr]
        simp only [k1, k2, k3, if_false, ite_self]
  · intro v hv hl
    have hr : '\n' ∉ v := by
      intro hh
      exact hline (by rw [hl]; simp [hh])
    have hs : "folder1=".toList ++ v = "folder1".toList ++ '=' :: v := by simp
    rw [hl, hs, processLine_key_value d "folder1".toList v (by decide) hr]
    simp [hv]
  · intro v hv hl
    have hr : '\n' ∉ v := by
      intro hh
      exact hline (by rw [hl]; simp [hh])
    have hs : "folder2=".toList ++ v = "folder2".toList ++ '=' :: v := by simp
    rw [hl, hs, processLine_key_value d "folder2".toList v (by decide) hr]
    simp [hv]

theorem getlinesAux_no_newline (text cur : Str) (hcur : '\n' ∉ cur) :
    ∀ l ∈ getlinesAux text cur, '\n' ∉ l := by
  induction text generalizing cur with
  | nil =>
    intro l hl
    by_cases h : cur = []
    · simp [getlinesAux, h] at hl
    · simp only [getlinesAux, h, if_false, List.mem_singleton] at hl
      rw [hl]; exact hcur
  | cons c cs ih =>
    intro l hl
    by_cases hc : c = '\n'
    · simp only [getlinesAux, hc, if_true, List.mem_cons] at hl
      rcases hl with hl | hl
      · rw [hl]; exact hcur
      · exact ih [] (by simp) l hl
    · simp only [getlinesAux, hc, if_false] at hl
      refine ih (cur ++ [c]) ?_ l hl
      simp only [List.mem_append, List.mem_singleton, not_or]
      exact ⟨hcur, fun hh => hc hh.symm⟩

theorem getlines_no_newline (text : Str) : ∀ l ∈ getlines text, '\n' ∉ l :=
  getlinesAux_no_newline text [] (by simp)

theorem getlinesAux_line (pre post cur : Str) (h : '\n' ∉ pre) :
    getlinesAux (pre ++ '\n' :: post) cur = (cur ++ pre) :: getlinesAux post [] := by
  induction pre generalizing cur with
  | nil => simp [getlinesAux]
  | cons c cs ih =>
    simp only [List.mem_cons, not_or] at h
    have hc : ¬ c = '\n' := fun hh => h.1 hh.symm
    simp [getlinesAux, hc, ih _ h.2]

theorem getlinesAux_last (s cur : Str) (h : '\n' ∉ s) :
    getlinesAux s cur = if cur ++ s = [] then [] else [cur ++ s] := by
  induction s generalizing cur with
  | nil => simp [getlinesAux]
  | cons c cs ih =>
    simp only [List.mem_cons, not_or] at h
    have hc : ¬ c = '\n' := fun hh => h.1 hh.symm
    simp [getlinesAux, hc, ih _ h.2]

/-- The list `getlines` is what repeated `std::getline(file, line)` yields: a
successful call on a fresh stream returns the head of the list and leaves
a stream whose lines are the tail; a failing call means the list is empty. -/
theorem getlines_getline (text : Str) :
    match getline (IStream.ofStr text) '\n' with
    | (is, some line) =>
      getlines text = line :: (if is.eof then [] else getlines is.rest)
    | (_, none) => getlines text = [] := by
  rcases split_at_first text '\n' with hno | ⟨pre, post, hsplit, hpre, _⟩
  · rw [getline_ofStr_end text '\n' hno]
    by_cases ht : text = []
    · simp [ht, getlines, getlinesAux]
    · simp only [ht, if_false]
      rw [getlines, getlinesAux_last text [] hno]
      simp [ht]
  · rw [hsplit, getline_ofStr_delim pre post '\n' hpre]
    simp only [getlines, Bool.false_eq_true, if_false]
    rw [getlinesAux_line pre post [] hpre]
    simp

theorem processLine_interval (d d1 : Daemon) (line : Str) (hline : '\n' ∉ line)
    (h : processLine d line = Result.ok d1) :
    d1.interval = d.interval ∨
      ∃ v, line = "interval=".toList ++ v ∧ stoi v = Result.ok d1.interval := by
  rcases split_at_first line '=' with hno | ⟨key, rest, hsplit, hkey, _⟩
  · rw [processLine_no_separator d line hno] at h
    simp only [Result.ok.injEq] at h
    left; rw [← h]
  · have hr : '\n' ∉ rest := by
      intro hh
      exact hline (by rw [hsplit]; simp [hh])
    rw [hsplit, processLine_key_value d key rest hkey hr] at h
    split_ifs at h with h0 h1 h2 h3
    · simp only [Result.ok.injEq] at h
      left; rw [← h]
    · simp only [Result.ok.injEq] at h
      left; rw [← h]
    · simp only [Result.ok.injEq] at h
      left; rw [← h]
    · right
      refine ⟨rest, by rw [hsplit, h3]; simp, ?_⟩
      cases hs : stoi rest with
      | ok n =>
        rw [hs] at h
        simp only [Result.ok.injEq] at h
        rw [← h]
      | threw e =>
        rw [hs] at h
        simp at h
    · simp only [Result.ok.injEq] at h
      left; rw [← h]

theorem fileLoop_interval_pos (lines : List Str) (d d1 : Daemon)
    (hnl : ∀ l ∈ lines, '\n' ∉ l) (hpos : 0 < d.interval)
    (hvals : ∀ l ∈ lines, ∀ v n, l = "interval=".toList ++ v → stoi v = Result.ok n → 0 < n)
    (h : fileLoop lines d = Outcome.returned d1) : 0 < d1.interval := by
  induction lines generalizing d with
  | nil =>
    simp only [fileLoop, Outcome.returned.injEq] at h
    rw [← h]; exact hpos
  | cons l rest ih =>
    unfold fileLoop at h
    cases hp : processLine d l with
    | threw e => rw [hp] at h; simp at h
    | ok d2 =>
      rw [hp] at h
      simp only at h
      have hpos2 : 0 < d2.interval := by
        rcases processLine_interval d d2 l (hnl l (by simp)) hp with h1 | ⟨v, hv, hs⟩
        · rw [h1]; exact hpos
        · exact hvals l (by simp) v _ hv hs
      exact ih d2 (fun x hx => hnl x (List.mem_cons_of_mem _ hx)) hpos2
        (fun x hx => hvals x (List.mem_cons_of_mem _ hx)) h

/-- C8 (amended): the interval is positive after construction, and a
`loadConfig` that returns keeps a positive interval positive when every
`interval=` line of the file that `std::stoi` accepts carries a positive
value. -/
theorem loadConfig_interval_pos (d : Daemon) (w : World) (d1 : Daemon) (w1 : World)
    (hpos : 0 < d.interval)
    (hret : loadConfig d w = Outcome.returned (d1, w1))
    (hvals : ∀ text, readOpen w.fs (resolve d.configPath) = some text →
      ∀ l ∈ getlines text, ∀ v n, l = "interval=".toList ++ v → stoi v = Result.ok n → 0 < n) :
    0 < Daemon.new.interval ∧ 0 < d1.interval := by
  refine ⟨by decide, ?_⟩
  unfold loadConfig at hret
  cases ho : readOpen w.fs (resolve d.configPath) with
  | none =>
    rw [ho] at hret
    simp only [Outcome.returned.injEq, Prod.mk.injEq] at hret
    rw [← hret.1]; exact hpos
  | some text =>
    rw [ho] at hret
    simp only at hret
    cases hf : fileLoop (getlines text) d with
    | threw e d2 => rw [hf] at hret; simp at hret
    | returned d2 =>
      rw [hf] at hret
      simp only [Outcome.returned.injEq, Prod.mk.injEq] at hret
      rw [← hret.1]
      exact fileLoop_interval_pos _ d d2 (getlines_no_newline text) hpos (hvals text ho) hf

theorem fileLoop_append (pre rest : List Str) (d d1 : Daemon)
    (hpre : fileLoop pre d = Outcome.returned d1) :
    fileLoop (pre ++ rest) d = fileLoop rest d1 := by
  induction pre generalizing d with
  | nil =>
    simp only [fileLoop, Outcome.returned.injEq] at hpre
    rw [hpre]; rfl
  | cons l ls ih =>
    simp only [List.cons_append, fileLoop] at hpre ⊢
    cases hp : processLine d l with
    | threw e => rw [hp] at hpre; simp at hpre
    | ok d2 =>
      rw [hp] at hpre
      simp only at hpre ⊢
      exact ih d2 hpre

/-- C1: a config file with a line `interval=v` on which `std::stoi` raises (as
on `interval=abc`) makes `loadConfig` end by that exception, which nothing
catches: the object is left as the lines before the bad line set it, and
the lines after the bad line, whatever they are, are never read. -/
theorem loadConfig_bad_interval_throws (d : Daemon) (w : World) (text : Str)
    (before after : List Str) (v : Str) (e : Exn) (d1 : Daemon)
    (hopen : readOpen w.fs (resolve d.configPath) = some text)
    (hlines : getlines text = before ++ ("interval=".toList ++ v) :: after)
    (hbefore : fileLoop before d = Outcome.returned d1)
    (hv : v ≠ []) (hbad : stoi v = Result.threw e) :
    loadConfig d w = Outcome.threw e (d1, w.emit (Event.openRead d.configPath true)) := by
  have hnl : '\n' ∉ v := by
    intro hh
    have hmem : ("interval=".toList ++ v) ∈ getlines text := by rw [hlines]; simp
    exact getlines_no_newline text _ hmem (by simp [hh])
  have hs : "interval=".toList ++ v = "interval".toList ++ '=' :: v := by simp
  have hline : processLine d1 ("interval=".toList ++ v) = Result.threw e := by
    rw [hs, processLine_key_value d1 "interval".toList v (by decide) hnl]
    have k1 : ¬ ("interval".toList = "folder1".toList) := by decide
    have k2 : ¬ ("interval".toList = "folder2".toList) := by decide
    simp only [hv, k1, k2, if_false, if_true, hbad]
  unfold loadConfig
  rw [hopen]
  simp only
  rw [hlines, fileLoop_append before _ d d1 hbefore]
  simp only [fileLoop, hline]

/-! ## The PID file and the start sequence -/

theorem eventsSince_append (w0 w : World) (evs : List Event) (h : w.trace = w0.trace ++ evs) :
    eventsSince w0 w = evs := by
  simp [eventsSince, h]

theorem checkPidFile_fs (env : Env) (d : Daemon) (w : World) :
    (checkPidFile env d w).fs = w.fs := by
  unfold checkPidFile
  cases readOpen w.fs (resolve d.pidFilePath) with
  | none => rfl
  | some content =>
    simp only [World.emit, World.sleepFor]
    split <;> rfl

/-- The actions of `checkPidFile` on a PID file that opens: the value `oldPid`
has after the extraction is probed, whether the extraction succeeded or not. -/
theorem checkPidFile_trace (env : Env) (d : Daemon) (w : World) (content : Str)
    (hr : readOpen w.fs (resolve d.pidFilePath) = some content) :
    (checkPidFile env d w).trace = w.trace ++
      (if processExists w.fs (extractInt content env.oldPidSlot).1 = true then
        [Event.openRead d.pidFilePath true,
         Event.probe (procPath (extractInt content env.oldPidSlot).1) true,
         Event.syslog Priority.LOG_INFO ("Found existing daemon with PID ".toList ++
            to_string (extractInt content env.oldPidSlot).1 ++ ". Sending SIGTERM.".toList),
         Event.kill (extractInt content env.oldPidSlot).1 Signal.SIGTERM, Event.sleep 1]
      else
        [Event.openRead d.pidFilePath true,
         Event.probe (procPath (extractInt content env.oldPidSlot).1) false,
         Event.syslog Priority.LOG_INFO ("Stale PID file found (PID ".toList ++
            to_string (extractInt content env.oldPidSlot).1 ++
            "), but process not running.".toList)]) := by
  unfold checkPidFile
  rw [hr]
  simp only [World.emit, World.sleepFor]
  by_cases ha : processExists w.fs (extractInt content env.oldPidSlot).1 = true
  · simp [ha]
  · simp only [Bool.not_eq_true] at ha
    simp [ha]

theorem writePidFile_existing (env : Env) (d : Daemon) (w : World) (content : Str)
    (hfile : lookup w.fs (resolve d.pidFilePath) = some (Entry.file content)) :
    (writePidFile env d w).trace = w.trace ++ [Event.openWrite d.pidFilePath false true] ∧
    lookup (writePidFile env d w).fs (resolve d.pidFilePath) =
      some (Entry.file (to_string env.pid)) := by
  have h1 : lookup (setEntry w.fs (resolve d.pidFilePath) (Entry.file []))
      (resolve d.pidFilePath) = some (Entry.file []) := lookup_setEntry_same _ _ _ _ hfile
  have ho : writeOpen w.fs (resolve d.pidFilePath) false =
      some (setEntry w.fs (resolve d.pidFilePath) (Entry.file [])) := by
    simp [writeOpen, hfile]
  unfold writePidFile
  rw [ho]
  refine ⟨rfl, ?_⟩
  simp only [writeStr, h1]
  have := lookup_setEntry_same _ _ (Entry.file ([] ++ to_string env.pid)) _ h1
  simpa using this

/-- C4: when the PID file holds a process identifier `p`, `checkPidFile`
followed by `writePidFile` sends `SIGTERM` to `p` exactly when
`processExists` reports `p`; the signal comes before the PID file is
opened for writing; and the file ends up holding the own identifier. -/
theorem pidFile_takeover (env : Env) (d : Daemon) (w : World) (content : Str) (p : Int)
    (hfile : lookup w.fs (resolve d.pidFilePath) = some (Entry.file content))
    (hparse : extractInt content env.oldPidSlot = (p, true)) :
    (Event.kill p Signal.SIGTERM ∈ eventsSince w (writePidFile env d (checkPidFile env d w)) ↔
      processExists w.fs p = true) ∧
    (∀ q sig, Event.kill q sig ∈ eventsSince w (writePidFile env d (checkPidFile env d w)) →
      q = p ∧ sig = Signal.SIGTERM) ∧
    eventsSince w (writePidFile env d (checkPidFile env d w)) =
      (if processExists w.fs p = true then
        [Event.openRead d.pidFilePath true, Event.probe (procPath p) true,
         Event.syslog Priority.LOG_INFO ("Found existing daemon with PID ".toList ++ to_string p ++
            ". Sending SIGTERM.".toList),
         Event.kill p Signal.SIGTERM, Event.sleep 1,
         Event.openWrite d.pidFilePath false true]
      else
        [Event.openRead d.pidFilePath true, Event.probe (procPath p) false,
         Event.syslog Priority.LOG_INFO ("Stale PID file found (PID ".toList ++ to_string p ++
            "), but process not running.".toList),
         Event.openWrite d.pidFilePath false true]) ∧
    lookup (writePidFile env d (checkPidFile env d w)).fs (resolve d.pidFilePath) =
      some (Entry.file (to_string env.pid)) := by
  have hr : readOpen w.fs (resolve d.pidFilePath) = some content := by
    simp [readOpen, hfile]
  have hc := checkPidFile_trace env d w content hr
  simp only [hparse] at hc
  have hfs := checkPidFile_fs env d w
  have hfile2 : lookup (checkPidFile env d w).fs (resolve d.pidFilePath) =
      some (Entry.file content) := by rw [hfs]; exact hfile
  obtain ⟨hw, hl⟩ := writePidFile_existing env d (checkPidFile env d w) content hfile2
  have hev : eventsSince w (writePidFile env d (checkPidFile env d w)) =
      (if processExists w.fs p = true then
        [Event.openRead d.pidFilePath true, Event.probe (procPath p) true,
         Event.syslog Priority.LOG_INFO ("Found existing daemon with PID ".toList ++ to_string p ++
            ". Sending SIGTERM.".toList),
         Event.kill p Signal.SIGTERM, Event.sleep 1,
         Event.openWrite d.pidFilePath false true]
      else
        [Event.openRead d.pidFilePath true, Event.probe (procPath p) false,
         Event.syslog Priority.LOG_INFO ("Stale PID file found (PID ".toList ++ to_string p ++
            "), but process not running.".toList),
         Event.openWrite d.pidFilePath false true]) := by
    apply eventsSince_append
    rw [hw, hc]
    by_cases ha : processExists w.fs p = true
    · simp [ha]
    · simp [ha]
  refine ⟨?_, ?_, hev, hl⟩
  · rw [hev]
    by_cases ha : processExists w.fs p = true
    · simp [ha]
    · simp [ha]
  · intro q sig hq
    rw [hev] at hq
    by_cases ha : processExists w.fs p = true
    · simp [ha] at hq
      exact hq
    · simp [ha] at hq

/-- C5: `checkPidFile` does not test whether `pidFile >> oldPid` succeeded. On
a PID file that does not parse it still probes the value `oldPid` then
has (on a blank file: whatever the uninitialised variable held) and sends
`SIGTERM` to it exactly when the probe finds it. -/
theorem checkPidFile_unparsed_still_probes (env : Env) (d : Daemon) (w : World)
    (content : Str)
    (hfile : readOpen w.fs (resolve d.pidFilePath) = some content)
    (hfail : (extractInt content env.oldPidSlot).2 = false) :
    (content.dropWhile isspace = [] →
      (extractInt content env.oldPidSlot).1 = env.oldPidSlot) ∧
    ((extractInt content env.oldPidSlot).1 = env.oldPidSlot ∨
      (extractInt content env.oldPidSlot).1 = 0 ∨
      (extractInt content env.oldPidSlot).1 = INT_MIN ∨
      (extractInt content env.oldPidSlot).1 = INT_MAX) ∧
    Event.probe (procPath (extractInt content env.oldPidSlot).1)
        (processExists w.fs (extractInt content env.oldPidSlot).1) ∈
      eventsSince w (checkPidFile env d w) ∧
    (Event.kill (extractInt content env.oldPidSlot).1 Signal.SIGTERM ∈
        eventsSince w (checkPidFile env d w) ↔
      processExists w.fs (extractInt content env.oldPidSlot).1 = true) := by
  refine ⟨?_, ?_, ?_⟩
  · intro hb
    simp [extractInt, hb]
  · unfold extractInt at hfail ⊢
    simp only at hfail ⊢
    split_ifs at hfail ⊢ with h1 h2 h3 h4
    · exact Or.inl rfl
    · exact Or.inr (Or.inl rfl)
    · exact Or.inr (Or.inr (Or.inl rfl))
    · exact Or.inr (Or.inr (Or.inr rfl))
  · have htrace0 := checkPidFile_trace env d w content hfile
    generalize (extractInt content env.oldPidSlot).1 = oldPid at htrace0
    have htrace : (checkPidFile env d w).trace = w.trace ++
        (if processExists w.fs oldPid = true then
          [Event.openRead d.pidFilePath true, Event.probe (procPath oldPid) true,
           Event.syslog Priority.LOG_INFO ("Found existing daemon with PID ".toList ++
             to_string oldPid ++ ". Sending SIGTERM.".toList),
           Event.kill oldPid Signal.SIGTERM, Event.sleep 1]
        else
          [Event.openRead d.pidFilePath true, Event.probe (procPath oldPid) false,
           Event.syslog Priority.LOG_INFO ("Stale PID file found (PID ".toList ++
             to_string oldPid ++ "), but process not running.".toList)]) := by
      exact htrace0
    rw [eventsSince_append _ _ _ htrace]
    by_cases ha : processExists w.fs oldPid = true
    · simp [ha]
    · simp [ha]

theorem checkPidFile_events (env : Env) (d : Daemon) (w : World) :
    ∃ evs, (checkPidFile env d w).trace = w.trace ++ evs ∧
      ∀ e ∈ evs, isDetachEvent e = false := by
  unfold checkPidFile
  cases readOpen w.fs (resolve d.pidFilePath) with
  | none => exact ⟨[Event.openRead d.pidFilePath false], rfl, by simp [isDetachEvent]⟩
  | some content =>
    simp only [World.emit, World.sleepFor]
    split
    · refine ⟨[Event.openRead d.pidFilePath true,
        Event.probe (procPath (extractInt content env.oldPidSlot).1)
          (processExists w.fs (extractInt content env.oldPidSlot).1),
        Event.syslog Priority.LOG_INFO ("Found existing daemon with PID ".toList ++
          to_string (extractInt content env.oldPidSlot).1 ++ ". Sending SIGTERM.".toList),
        Event.kill (extractInt content env.oldPidSlot).1 Signal.SIGTERM, Event.sleep 1],
        by simp, ?_⟩
      simp [isDetachEvent]
    · refine ⟨[Event.openRead d.pidFilePath true,
        Event.probe (procPath (extractInt content env.oldPidSlot).1)
          (processExists w.fs (extractInt content env.oldPidSlot).1),
        Event.syslog Priority.LOG_INFO ("Stale PID file found (PID ".toList ++
          to_string (extractInt content env.oldPidSlot).1 ++
          "), but process not running.".toList)],
        by simp, ?_⟩
      simp [isDetachEvent]

theorem daemonize_detached (env : Env) (w : World)
    (hf1 : env.fork1 = true) (hs : env.setsidOk = true) (hf2 : env.fork2 = true) :
    daemonize env w = Detach.detached ⟨w.fs, w.clock, w.trace ++ detachEvents env⟩ := by
  simp [daemonize, hf1, hs, hf2, World.emit, detachEvents]

theorem checkPidFile_congr (env : Env) (d d1 : Daemon) (w : World)
    (h : d1.pidFilePath = d.pidFilePath) : checkPidFile env d1 w = checkPidFile env d w := by
  unfold checkPidFile
  rw [h]

theorem writePidFile_trace (env : Env) (d : Daemon) (w : World) :
    (writePidFile env d w).trace = w.trace ++ [Event.openWrite d.pidFilePath false true] ∨
    (writePidFile env d w).trace = w.trace ++
      [Event.openWrite d.pidFilePath false false,
       Event.syslog Priority.LOG_ERR "Failed to write PID file.".toList] := by
  unfold writePidFile
  cases writeOpen w.fs (resolve d.pidFilePath) false with
  | some fs1 => exact Or.inl rfl
  | none => exact Or.inr (by simp [World.emit])

/-- C9 (amended): when both forks and `setsid` succeed, the actions of the
start sequence of `run` are, in this order: those of `checkPidFile` (the
read of the PID file, the probe, the signal, its log messages), then those
of `daemonize`, once and as one block, then the opening of the PID file
for writing (with a log message when it fails), then the installation of
the two signal handlers. No action outside the block is one of
`daemonize`. -/
theorem startup_order (env : Env) (cfgPath : Str) (w : World)
    (hf1 : env.fork1 = true) (hs : env.setsidOk = true) (hf2 : env.fork2 = true) :
    ∃ w1 d1 written,
      startup env cfgPath Daemon.new w = (Detach.detached w1, d1) ∧
      eventsSince w w1 =
        eventsSince w (checkPidFile env Daemon.new w) ++ detachEvents env ++ written ++
          [Event.signal Signal.SIGHUP, Event.signal Signal.SIGTERM] ∧
      (written = [Event.openWrite Daemon.new.pidFilePath false true] ∨
        written = [Event.openWrite Daemon.new.pidFilePath false false,
          Event.syslog Priority.LOG_ERR "Failed to write PID file.".toList]) ∧
      ∀ e ∈ eventsSince w (checkPidFile env Daemon.new w) ++ written ++
          [Event.signal Signal.SIGHUP, Event.signal Signal.SIGTERM],
        isDetachEvent e = false := by
  generalize hd1 : ({ Daemon.new with configPath := absolute env cfgPath } : Daemon) = d1
  have hpid : d1.pidFilePath = Daemon.new.pidFilePath := by rw [← hd1]
  have hcongr := checkPidFile_congr env Daemon.new d1 w hpid
  obtain ⟨pre, hpre, hpre2⟩ := checkPidFile_events env Daemon.new w
  have hsince : eventsSince w (checkPidFile env Daemon.new w) = pre :=
    eventsSince_append _ _ _ hpre
  generalize hwc : checkPidFile env Daemon.new w = wc at hpre hsince hcongr
  have hwr := writePidFile_trace env d1 ⟨wc.fs, wc.clock, wc.trace ++ detachEvents env⟩
  rw [hpid] at hwr
  have hstart : startup env cfgPath Daemon.new w =
      (Detach.detached (((writePidFile env d1
        ⟨wc.fs, wc.clock, wc.trace ++ detachEvents env⟩).emit
        (Event.signal Signal.SIGHUP)).emit (Event.signal Signal.SIGTERM)), d1) := by
    unfold startup
    simp only [hd1, hcongr, daemonize_detached env _ hf1 hs hf2]
  have hdet : ∀ e ∈ pre ++ [Event.signal Signal.SIGHUP, Event.signal Signal.SIGTERM],
      isDetachEvent e = false := by
    intro e he
    simp only [List.mem_append, List.mem_cons, List.mem_singleton, List.not_mem_nil,
      or_false] at he
    rcases he with he | he | he
    · exact hpre2 e he
    · rw [he]; rfl
    · rw [he]; rfl
  rcases hwr with hwr | hwr
  · refine ⟨_, d1, [Event.openWrite Daemon.new.pidFilePath false true], hstart, ?_,
      Or.inl rfl, ?_⟩
    · rw [hsince]
      apply eventsSince_append
      simp only [World.emit]
      rw [hwr]
      simp [hpre]
    · rw [hsince]
      intro e he
      simp only [List.mem_append, List.mem_cons, List.mem_singleton, List.not_mem_nil,
        or_false] at he
      rcases he with (he | he) | he
      · exact hdet e (by simp [he])
      · rw [he]; rfl
      · exact hdet e (by simp [he])
  · refine ⟨_, d1, [Event.openWrite Daemon.new.pidFilePath false false,
        Event.syslog Priority.LOG_ERR "Failed to write PID file.".toList], hstart, ?_,
      Or.inr rfl, ?_⟩
    · rw [hsince]
      apply eventsSince_append
      simp only [World.emit]
      rw [hwr]
      simp [hpre]
    · rw [hsince]
      intro e he
      simp only [List.mem_append, List.mem_cons, List.mem_singleton, List.not_mem_nil,
        or_false] at he
      rcases he with (he | he | he) | he
      · exact hdet e (by simp [he])
      · rw [he]; rfl
      · rw [he]; rfl
      · exact hdet e (by simp [he])

/-! ## The scheduler loop -/

/-- A `loadConfig` that returns has performed two actions: the attempt to open
the config file and one log message. -/
theorem loadConfig_returned_trace (d : Daemon) (w : World) (d1 : Daemon) (w1 : World)
    (h : loadConfig d w = Outcome.returned (d1, w1)) :
    ∃ ok prio msg,
      w1.trace = w.trace ++ [Event.openRead d.configPath ok, Event.syslog prio msg] := by
  unfold loadConfig at h
  cases ho : readOpen w.fs (resolve d.configPath) with
  | none =>
    rw [ho] at h
    simp only [Outcome.returned.injEq, Prod.mk.injEq] at h
    refine ⟨false, Priority.LOG_ERR, "Failed to open config file: ".toList ++ d.configPath, ?_⟩
    rw [← h.2]
    simp [World.emit]
  | some text =>
    rw [ho] at h
    simp only at h
    cases hf : fileLoop (getlines text) d with
    | threw e d2 => rw [hf] at h; simp at h
    | returned d2 =>
      rw [hf] at h
      simp only [Outcome.returned.injEq, Prod.mk.injEq] at h
      refine ⟨true, Priority.LOG_INFO,
        "Config loaded. Interval: ".toList ++ to_string d2.interval, ?_⟩
      rw [← h.2]
      simp [World.emit]

/-- The actions of one `doWork`: at least one, the last a log message, none a
sleep. -/
theorem doWork_trace (env : Env) (d : Daemon) (w : World) :
    ∃ evs, (doWork env d w).trace = w.trace ++ evs ∧ evs ≠ [] ∧
      ∀ e ∈ evs, ∀ k, e ≠ Event.sleep k := by
  unfold doWork
  by_cases hf : d.folder1 = [] ∨ d.folder2 = []
  · rw [if_pos hf]
    exact ⟨[Event.syslog Priority.LOG_WARNING "Folders not configured correctly.".toList],
      rfl, by simp, by simp⟩
  · rw [if_neg hf]
    cases ho : writeOpen w.fs (resolve (d.folder2 ++ "/size.log".toList)) true with
    | some fs1 =>
      refine ⟨[Event.openWrite (d.folder2 ++ "/size.log".toList) true true,
        Event.syslog Priority.LOG_INFO ("Work done. Size ".toList ++
          to_string (getDirectorySize w.fs (resolve d.folder1)) ++
          " logged, folder cleared.".toList)], ?_, by simp, by simp⟩
      simp only [ho, World.emit, List.append_assoc, List.singleton_append]
    | none =>
      refine ⟨[Event.openWrite (d.folder2 ++ "/size.log".toList) true false,
        Event.syslog Priority.LOG_ERR ("Failed to write to log file: ".toList ++
          (d.folder2 ++ "/size.log".toList)),
        Event.syslog Priority.LOG_INFO ("Work done. Size ".toList ++
          to_string (getDirectorySize w.fs (resolve d.folder1)) ++
          " logged, folder cleared.".toList)], ?_, by simp, by simp⟩
      simp only [ho, World.emit, List.append_assoc, List.singleton_append, List.cons_append,
        List.nil_append]

/-- The silent steps from a point of the sleep phase at which `m_reloadConfig`
is true to the start of the next sleep loop. -/
theorem reload_steps (env : Env) (s : State) (d1 : Daemon) (w1 : World)
    (hpc : inSleepPhase s.pc = true) (hrun : s.m_running = true)
    (hrel : s.m_reloadConfig = true)
    (hload : loadConfig s.d (if s.pc = PC.sleeping then s.w.sleepFor 1 else s.w) =
      Outcome.returned (d1, w1)) :
    ∃ n, n ≤ 10 ∧ exec env (List.replicate n []) s =
      { pc := PC.forCheck, d := d1, w := doWork env d1 w1, i := 0,
        m_running := true, m_reloadConfig := false } := by
  obtain ⟨pc, d, w, i, r, l⟩ := s
  simp only at hrun hrel hload hpc
  subst hrun hrel
  simp only [inSleepPhase, Bool.decide_or, Bool.or_eq_true, decide_eq_true_eq] at hpc
  rcases hpc with h | h | h | h | h
  · subst h
    simp only [reduceCtorEq, if_false] at hload
    by_cases hi : i < d.interval
    · exact ⟨8, by omega, by simp [List.replicate, exec, step, hi, hload]⟩
    · exact ⟨6, by omega, by simp [List.replicate, exec, step, hi, hload]⟩
  · subst h
    simp only [reduceCtorEq, if_false] at hload
    exact ⟨7, by omega, by simp [List.replicate, exec, step, hload]⟩
  · subst h
    simp only [reduceCtorEq, if_false] at hload
    exact ⟨6, by omega, by simp [List.replicate, exec, step, hload]⟩
  · subst h
    simp only [if_true] at hload
    by_cases hi : i + 1 < d.interval
    · exact ⟨10, by omega, by simp [List.replicate, exec, step, hi, hload]⟩
    · exact ⟨8, by omega, by simp [List.replicate, exec, step, hi, hload]⟩
  · subst h
    simp only [reduceCtorEq, if_false] at hload
    by_cases hi : i + 1 < d.interval
    · exact ⟨9, by omega, by simp [List.replicate, exec, step, hi, hload]⟩
    · exact ⟨7, by omega, by simp [List.replicate, exec, step, hi, hload]⟩

/-- C6 (amended): when `m_reloadConfig` is true at a point of the sleep phase
(`m_running` true, no further signal), the sleep loop is left, after the
one-second sleep in progress if the flag was set during one, and the
actions that follow are those of the re-read of the config (`loadConfig`,
here one that returns) and then those of one `doWork` with the
configuration just loaded, at least one action and none of them a sleep;
after them the flag is clear and the sleep loop starts again from `i = 0`
with the interval just loaded. -/
theorem reload_in_sleep_phase (env : Env) (s : State) (d1 : Daemon) (w1 : World)
    (hpc : inSleepPhase s.pc = true) (hrun : s.m_running = true)
    (hrel : s.m_reloadConfig = true)
    (hload : loadConfig s.d (if s.pc = PC.sleeping then s.w.sleepFor 1 else s.w) =
      Outcome.returned (d1, w1)) :
    ∃ n ok prio msg work,
      n ≤ 10 ∧
      exec env (List.replicate n []) s =
        { pc := PC.forCheck, d := d1, w := doWork env d1 w1, i := 0,
          m_running := true, m_reloadConfig := false } ∧
      eventsSince s.w (exec env (List.replicate n []) s).w =
        (if s.pc = PC.sleeping then [Event.sleep 1] else []) ++
          [Event.openRead s.d.configPath ok, Event.syslog prio msg] ++ work ∧
      work = eventsSince w1 (doWork env d1 w1) ∧
      work ≠ [] ∧ ∀ e ∈ work, ∀ k, e ≠ Event.sleep k := by
  obtain ⟨n, hn, hexec⟩ := reload_steps env s d1 w1 hpc hrun hrel hload
  obtain ⟨ok, prio, msg, hl⟩ := loadConfig_returned_trace _ _ _ _ hload
  obtain ⟨work, hw, hne, hns⟩ := doWork_trace env d1 w1
  refine ⟨n, ok, prio, msg, work, hn, hexec, ?_, (eventsSince_append _ _ _ hw).symm, hne, hns⟩
  rw [hexec]
  apply eventsSince_append
  simp only
  rw [hw, hl]
  by_cases hs : s.pc = PC.sleeping
  · simp [hs, World.sleepFor]
  · simp [hs]

/-! ## Closed statements: the failing inputs and the instances -/

/-- Instance of `loadConfig_bad_interval_throws`: the file holds `folder2=/tmp/dst`,
`interval=abc`, `folder1=/tmp/src` in this order. `folder1` stays empty
although the file sets it, and `run` ends by the uncaught exception, both
at the first load and at a reload. -/
theorem loadConfig_bad_interval_throws_witness :
    loadConfig (exDaemon [] [] 30) (exWorld exConfigBadInterval none) =
      Outcome.threw Exn.invalid_argument
        (exDaemon [] "/tmp/dst".toList 30,
         (exWorld exConfigBadInterval none).emit
           (Event.openRead "/etc/lab1.conf".toList true)) ∧
    (enterLoop (exDaemon [] [] 30) (exWorld exConfigBadInterval none)).pc = PC.terminated ∧
    (step exEnv (exState PC.reload true true exConfigBadInterval)).pc = PC.terminated :=
  ⟨loadConfig_bad_interval_throws (exDaemon [] [] 30) (exWorld exConfigBadInterval none)
      exConfigBadInterval ["folder2=/tmp/dst".toList] ["folder1=/tmp/src".toList]
      "abc".toList Exn.invalid_argument (exDaemon [] "/tmp/dst".toList 30)
      (by decide) (by decide) (by decide) (by decide) (by decide),
    by decide, by decide⟩

/-- C2: the record `doWork` writes carries the label `Time: ` twice: for a
time text `t` and a size `n` it is `Time: Time: t, Size: n bytes`, which
is not the line `Time: t, Size: n bytes`. -/
theorem logRecord_label_twice (t : Str) (n : Int) :
    logRecord (t ++ ['\n']) n =
      "Time: Time: ".toList ++ t ++ ", Size: ".toList ++ to_string n ++ " bytes\n".toList ∧
    logRecord (t ++ ['\n']) n ≠
      "Time: ".toList ++ t ++ ", Size: ".toList ++ to_string n ++ " bytes\n".toList := by
  refine ⟨logRecord_eq t n, ?_⟩
  rw [logRecord_eq]
  intro h
  have := congrArg List.length h
  simp only [List.length_append] at this
  have h1 : "Time: Time: ".toList.length = 12 := by decide
  have h2 : "Time: ".toList.length = 6 := by decide
  omega

/-- C3, as stated, fails: with `folder2` equal to `folder1`, or inside it, both
naming existing directories, `size.log` does not exist after `doWork`. -/
theorem doWork_purges_own_log :
    lookup (exWorld exConfig none).fs (resolve "/tmp/src".toList) = some Entry.dir ∧
    lookup (doWork exEnv (exDaemon "/tmp/src".toList "/tmp/src".toList 30)
      (exWorld exConfig none)).fs (resolve "/tmp/src/size.log".toList) = none ∧
    lookup (exWorld exConfig none).fs (resolve "/tmp/src/sub".toList) = some Entry.dir ∧
    lookup (doWork exEnv (exDaemon "/tmp/src".toList "/tmp/src/sub".toList 30)
      (exWorld exConfig none)).fs (resolve "/tmp/src/sub/size.log".toList) = none := by
  decide

/-- Instance of `checkPidFile_unparsed_still_probes`: with an empty PID file
and 1 in the stack slot of `oldPid`, process 1 is probed, found, and sent
`SIGTERM`. With an absent PID file nothing of this happens. With the text
`abc` the value is 0 and `/proc/0` is probed. -/
theorem checkPidFile_unparsed_still_probes_witness :
    Event.kill 1 Signal.SIGTERM ∈
      eventsSince (exWorld exConfig (some [])) (checkPidFile exEnv Daemon.new
        (exWorld exConfig (some []))) ∧
    (checkPidFile exEnv Daemon.new (exWorld exConfig (some []))).trace =
      [Event.openRead "/tmp/daemon_lab1.pid".toList true,
       Event.probe "/proc/1".toList true,
       Event.syslog Priority.LOG_INFO
         "Found existing daemon with PID 1. Sending SIGTERM.".toList,
       Event.kill 1 Signal.SIGTERM, Event.sleep 1] ∧
    (checkPidFile exEnv Daemon.new (exWorld exConfig none)).trace =
      [Event.openRead "/tmp/daemon_lab1.pid".toList false] ∧
    (checkPidFile exEnv Daemon.new (exWorld exConfig (some "abc".toList))).trace =
      [Event.openRead "/tmp/daemon_lab1.pid".toList true,
       Event.probe "/proc/0".toList false,
       Event.syslog Priority.LOG_INFO
         "Stale PID file found (PID 0), but process not running.".toList] :=
  ⟨(checkPidFile_unparsed_still_probes exEnv Daemon.new (exWorld exConfig (some [])) []
      (by decide) (by decide)).2.2.2.mpr (by decide),
    by decide, by decide, by decide⟩

/-- C6, as stated, fails: after a reload request seen in the sleep loop, a
`doWork` cycle runs between the re-read of the config and the next sleep. -/
theorem reload_runs_doWork_before_sleep :
    (exec exEnv (List.replicate 10 []) (exState PC.readReload true true exConfig)).w.trace =
      [Event.openRead "/etc/lab1.conf".toList true,
       Event.syslog Priority.LOG_INFO "Config loaded. Interval: 5".toList,
       Event.openWrite "/tmp/dst/size.log".toList true true,
       Event.syslog Priority.LOG_INFO "Work done. Size 7 logged, folder cleared.".toList,
       Event.sleep 1] := by
  decide

/-- C8, as stated, fails: `loadConfig` returns on a file with `interval=0`, or
`interval=-5`, and stores that value over the positive one. -/
theorem loadConfig_accepts_nonpositive_interval :
    fileLoop (getlines "interval=0\n".toList) (exDaemon [] [] 30) =
      Outcome.returned (exDaemon [] [] 0) ∧
    loadConfig (exDaemon [] [] 30) (exWorld "interval=-5\n".toList none) =
      Outcome.returned (exDaemon [] [] (-5),
        ((exWorld "interval=-5\n".toList none).emit
          (Event.openRead "/etc/lab1.conf".toList true)).emit
          (Event.syslog Priority.LOG_INFO "Config loaded. Interval: -5".toList)) := by
  decide

/-- C9, as stated, fails: `run` calls `checkPidFile` before `daemonize`, so the
read of the PID file, the probe, the log message and the signal to the
predecessor all come before the first `fork`. -/
theorem startup_checks_pid_before_detach :
    ∃ w1 d1, startup exEnv "lab1.conf".toList Daemon.new
        (exWorld exConfig (some "1234\n".toList)) = (Detach.detached w1, d1) ∧
      w1.trace.take 6 =
        [Event.openRead "/tmp/daemon_lab1.pid".toList true,
         Event.probe "/proc/1234".toList true,
         Event.syslog Priority.LOG_INFO
           "Found existing daemon with PID 1234. Sending SIGTERM.".toList,
         Event.kill 1234 Signal.SIGTERM, Event.sleep 1, Event.fork true] := by
  refine ⟨_, _, rfl, ?_⟩
  decide

/-- Instance of `doWork_cycle`: source `/tmp/src`, destination `/tmp/dst`, no
`size.log` yet. -/
theorem doWork_cycle_witness :
    lookup (exWorld exConfig none).fs (resolve "/tmp/src".toList) = some Entry.dir ∧
    lookup (exWorld exConfig none).fs (resolve "/tmp/dst".toList) = some Entry.dir ∧
    (∀ q, isChildOf (resolve "/tmp/src".toList) q = true →
      lookup (doWork exEnv (exDaemon "/tmp/src".toList "/tmp/dst".toList 30)
        (exWorld exConfig none)).fs q = none) ∧
    lookup (doWork exEnv (exDaemon "/tmp/src".toList "/tmp/dst".toList 30)
        (exWorld exConfig none)).fs (resolve "/tmp/src".toList) = some Entry.dir :=
  ⟨by decide, by decide,
    (doWork_cycle exEnv (exDaemon "/tmp/src".toList "/tmp/dst".toList 30)
      (exWorld exConfig none) "Fri Oct 30 08:19:00 2026".toList
      (by decide) (by decide) (by decide) (by decide) (by decide) (by decide)
      (by decide) (by decide)).2⟩

/-- Instance of `pidFile_takeover`: the PID file names process 1234, which
`/proc` lists. -/
theorem pidFile_takeover_witness :
    processExists (exWorld exConfig (some "1234\n".toList)).fs 1234 = true ∧
    Event.kill 1234 Signal.SIGTERM ∈
      eventsSince (exWorld exConfig (some "1234\n".toList))
        (writePidFile exEnv Daemon.new
          (checkPidFile exEnv Daemon.new (exWorld exConfig (some "1234\n".toList)))) ∧
    lookup (writePidFile exEnv Daemon.new
        (checkPidFile exEnv Daemon.new (exWorld exConfig (some "1234\n".toList)))).fs
      (resolve Daemon.new.pidFilePath) = some (Entry.file (to_string exEnv.pid)) :=
  ⟨by decide,
    (pidFile_takeover exEnv Daemon.new (exWorld exConfig (some "1234\n".toList))
      "1234\n".toList 1234 (by decide) (by decide)).1.mpr (by decide),
    (pidFile_takeover exEnv Daemon.new (exWorld exConfig (some "1234\n".toList))
      "1234\n".toList 1234 (by decide) (by decide)).2.2.2⟩

/-- Instance of `reload_in_sleep_phase`: the reload request arrives during a
one-second sleep. -/
theorem reload_in_sleep_phase_witness :
    ∃ n ok prio msg work,
      n ≤ 10 ∧
      exec exEnv (List.replicate n []) (exState PC.sleeping true true exConfig) =
        { pc := PC.forCheck, d := exDaemon "/tmp/src".toList "/tmp/dst".toList 5,
          w := doWork exEnv (exDaemon "/tmp/src".toList "/tmp/dst".toList 5)
            ((((exWorld exConfig (some "4242".toList)).sleepFor 1).emit
              (Event.openRead "/etc/lab1.conf".toList true)).emit
              (Event.syslog Priority.LOG_INFO "Config loaded. Interval: 5".toList)),
          i := 0, m_running := true, m_reloadConfig := false } ∧
      eventsSince (exState PC.sleeping true true exConfig).w
          (exec exEnv (List.replicate n []) (exState PC.sleeping true true exConfig)).w =
        (if (exState PC.sleeping true true exConfig).pc = PC.sleeping then [Event.sleep 1]
          else []) ++
          [Event.openRead (exState PC.sleeping true true exConfig).d.configPath ok,
           Event.syslog prio msg] ++ work ∧
      work = eventsSince
        ((((exWorld exConfig (some "4242".toList)).sleepFor 1).emit
          (Event.openRead "/etc/lab1.conf".toList true)).emit
          (Event.syslog Priority.LOG_INFO "Config loaded. Interval: 5".toList))
        (doWork exEnv (exDaemon "/tmp/src".toList "/tmp/dst".toList 5)
          ((((exWorld exConfig (some "4242".toList)).sleepFor 1).emit
            (Event.openRead "/etc/lab1.conf".toList true)).emit
            (Event.syslog Priority.LOG_INFO "Config loaded. Interval: 5".toList))) ∧
      work ≠ [] ∧ ∀ e ∈ work, ∀ k, e ≠ Event.sleep k :=
  reload_in_sleep_phase exEnv (exState PC.sleeping true true exConfig)
    (exDaemon "/tmp/src".toList "/tmp/dst".toList 5)
    ((((exWorld exConfig (some "4242".toList)).sleepFor 1).emit
      (Event.openRead "/etc/lab1.conf".toList true)).emit
      (Event.syslog Priority.LOG_INFO "Config loaded. Interval: 5".toList))
    (by decide) (by decide) (by decide) (by decide)

/-- Instance of `loadConfig_interval_pos`: the file sets `interval=5`. -/
theorem loadConfig_interval_pos_witness :
    0 < (exDaemon [] [] 30).interval ∧
    0 < Daemon.new.interval ∧
    0 < (exDaemon "/tmp/src".toList "/tmp/dst".toList 5).interval :=
  ⟨by decide,
    loadConfig_interval_pos (exDaemon [] [] 30) (exWorld exConfig none)
      (exDaemon "/tmp/src".toList "/tmp/dst".toList 5)
      (((exWorld exConfig none).emit (Event.openRead "/etc/lab1.conf".toList true)).emit
        (Event.syslog Priority.LOG_INFO "Config loaded. Interval: 5".toList))
      (by decide) (by decide)
      (by
        intro text ht l hl v n hv hs
        have hr : readOpen (exWorld exConfig none).fs (resolve (exDaemon [] [] 30).configPath) =
            some exConfig := by decide
        rw [hr] at ht
        simp only [Option.some.injEq] at ht
        subst ht
        have hls : getlines exConfig =
            ["folder1=/tmp/src".toList, "folder2=/tmp/dst".toList, "interval=5".toList] := by
          decide
        rw [hls] at hl
        simp only [List.mem_cons, List.mem_singleton, List.not_mem_nil, or_false] at hl
        rcases hl with h | h | h
        · rw [h] at hv; simp at hv
        · rw [h] at hv; simp at hv
        · rw [h] at hv
          have hv5 : v = "5".toList := by simpa using hv.symm
          rw [hv5] at hs
          have h5 : stoi "5".toList = Result.ok 5 := by decide
          rw [h5] at hs
          simp only [Result.ok.injEq] at hs
          omega)⟩

/-- Instance of `startup_order`: a start with a live predecessor 1234. -/
theorem startup_order_witness :
    ∃ w1 d1 written,
      startup exEnv "lab1.conf".toList Daemon.new (exWorld exConfig (some "1234\n".toList)) =
        (Detach.detached w1, d1) ∧
      eventsSince (exWorld exConfig (some "1234\n".toList)) w1 =
        eventsSince (exWorld exConfig (some "1234\n".toList))
          (checkPidFile exEnv Daemon.new (exWorld exConfig (some "1234\n".toList))) ++
          detachEvents exEnv ++ written ++
          [Event.signal Signal.SIGHUP, Event.signal Signal.SIGTERM] ∧
      (written = [Event.openWrite Daemon.new.pidFilePath false true] ∨
        written = [Event.openWrite Daemon.new.pidFilePath false false,
          Event.syslog Priority.LOG_ERR "Failed to write PID file.".toList]) ∧
      ∀ e ∈ eventsSince (exWorld exConfig (some "1234\n".toList))
          (checkPidFile exEnv Daemon.new (exWorld exConfig (some "1234\n".toList))) ++
          written ++ [Event.signal Signal.SIGHUP, Event.signal Signal.SIGTERM],
        isDetachEvent e = false :=
  startup_order exEnv "lab1.conf".toList (exWorld exConfig (some "1234\n".toList))
    rfl rfl rfl

/-- Instance of `processLine_keys`: an unknown key, a line without `=`, and a
`folder1` line whose value holds a further `=`. -/
theorem processLine_keys_witness :
    processLine (exDaemon [] [] 30) "colour=red".toList = Result.ok (exDaemon [] [] 30) ∧
    processLine (exDaemon [] [] 30) "folder1".toList = Result.ok (exDaemon [] [] 30) ∧
    processLine (exDaemon [] [] 30) "folder1=/data/a=b".toList =
      Result.ok (exDaemon "/data/a=b".toList [] 30) :=
  ⟨(processLine_keys (exDaemon [] [] 30) "colour=red".toList (by decide)).1
      (Or.inr (by decide)),
    (processLine_keys (exDaemon [] [] 30) "folder1".toList (by decide)).1
      (Or.inl (by decide)),
    (processLine_keys (exDaemon [] [] 30) "folder1=/data/a=b".toList (by decide)).2.1
      "/data/a=b".toList (by decide) (by decide)⟩

end Lab1
